import Mathlib

/-!
# ncbtcjsontypes: the name_show / name_sync / name_scan / name_filter codecs

A shallow embedding of `extratypes.go`.

Conventions of the embedding
* A byte slice handed to or produced by `encoding/json` is identified with the JSON
  text it spells (`Bytes.text doc`), or is not JSON text at all (`Bytes.invalid msg`).
* A Go `string` is a sequence of bytes. It is kept as a `GoString`, the way a `range`
  loop reads it: its characters in order, and every byte that is not part of a valid
  UTF-8 encoding standing for itself. A string of a JSON text is Unicode text, a `String`.
* A Go `int` is an `Int`; where a value is converted to `int` its 64-bit range is
  explicit. A finite Go `float64` is the rational number it denotes; a number literal of
  a JSON text is the rational number it spells, and `strconv.roundFloat64` is the
  `float64` it is read as.
* A value of type `interface{}` is a `GoVal`.
* A method with a pointer receiver that may write to it takes the receiver and returns
  the receiver after the call together with the returned `error` (`none` is `nil`).
* `encoding/json`, `strconv` and `btcjson` are libraries; what this package uses of them
  (`json.Marshal`, `json.Unmarshal` at the types it is called with, `btcjson.RawCmd`,
  `btcjson.NewRawCmd`, `btcjson.ErrWrongNumberOfParams`) is modelled in the namespaces
  `json`, `strconv` and `btcjson`.
-/

set_option maxRecDepth 100000
set_option exponentiation.threshold 5000

namespace ncbtcjsontypes

/-! ## Go strings -/

/-- One step of a `range` loop over a Go string: a character, or a byte that is not
part of a valid UTF-8 encoding. -/
inductive StringPiece where
  | char (c : Char)
  | byte (b : UInt8)
  deriving DecidableEq

/-- A Go `string`. -/
abbrev GoString := List StringPiece

/-- The Go string that holds the UTF-8 encoding of a text. -/
def GoString.ofText (s : String) : GoString :=
  s.toList.map StringPiece.char

/-- The text `encoding/json` writes for a Go string: its characters, with U+FFFD in the
place of every byte that is not part of a valid UTF-8 encoding. -/
def GoString.toText (g : GoString) : String :=
  String.mk (g.map (fun p =>
    match p with
    | .char c => c
    | .byte _ => Char.ofNat 0xFFFD))

/-- The Go string is valid UTF-8. -/
def GoString.isText (g : GoString) : Bool :=
  g.all (fun p =>
    match p with
    | .char _ => true
    | .byte _ => false)

/-- The bytes of a Go string. -/
def GoString.bytes (g : GoString) : List Nat :=
  g.flatMap (fun p =>
    match p with
    | .char c => (String.utf8EncodeChar c).map UInt8.toNat
    | .byte b => [b.toNat])

/-! ## encoding/json: documents, byte slices and dynamic values -/

/-- A JSON document. Number literals come in two kinds that the decoder tells apart:
`int n` is a literal in integer syntax (an optional sign and digits), `real x` is any
other literal (with a fraction or an exponent) and `x` is the number it spells. Object
members are kept in document order. -/
inductive JSON where
  | null
  | bool (b : Bool)
  | int (n : Int)
  | real (x : ℚ)
  | str (s : String)
  | arr (xs : List JSON)
  | obj (kvs : List (String × JSON))

/-- A `[]byte` (also `json.RawMessage`) as seen by `encoding/json`: JSON text, or bytes
that are not JSON text, with the message of the syntax error the decoder reports for
them. -/
inductive Bytes where
  | invalid (msg : String)
  | text (doc : JSON)

/-- A value held in an `interface{}`. `float64`, `string`, `slice` (a non-nil
`[]interface{}`) and `map` (a non-nil `map[string]interface{}`, given by its entries in
increasing key order) together with `nil` and `bool` are what the decoder stores in an
`interface{}`; `int` is a Go `int`; `unsupported` stands for a value `json.Marshal`
rejects (a channel, a function, a NaN). -/
inductive GoVal where
  | nil
  | bool (b : Bool)
  | float64 (x : ℚ)
  | string (s : GoString)
  | slice (xs : List GoVal)
  | map (m : List (GoString × GoVal))
  | int (n : Int)
  | unsupported

/-- Go `error` values that occur in this package. -/
inductive Error where
  /-- The sentinel `btcjson.ErrWrongNumberOfParams`. -/
  | ErrWrongNumberOfParams
  /-- The package variable `errMalformed`. -/
  | errMalformed
  /-- A fresh error made by `fmt.Errorf`, with its message. -/
  | errorf (msg : String)
  /-- A `*json.SyntaxError`, with its message. -/
  | syntaxError (msg : String)
  /-- A `*json.UnmarshalTypeError`: a JSON value of kind `value` met a Go type `goType`. -/
  | unmarshalType (value : String) (goType : String)
  /-- A `*json.UnsupportedTypeError` or `*json.UnsupportedValueError`. -/
  | unsupportedValue
  /-- A `*json.MarshalerError`: a `json.RawMessage` that is not JSON text. -/
  | marshalerError
  deriving DecidableEq

/-- The message of an error value, what its method `Error()` returns. For a number
literal outside the range of its Go type the decoder names the literal after the word
number; the text of a literal is not part of a `JSON` document and is left out. -/
def Error.message : Error → String
  | .ErrWrongNumberOfParams => "incorrect number of parameters"
  | .errMalformed => "malformed name_sync event"
  | .errorf msg => msg
  | .syntaxError msg => msg
  | .unmarshalType value goType =>
    "json: cannot unmarshal " ++ value ++ " into Go value of type " ++ goType
  | .unsupportedValue => "json: unsupported value"
  | .marshalerError => "json: error calling MarshalJSON for type json.RawMessage"

/-- The kind of a JSON value as `json.UnmarshalTypeError` names it. -/
def JSON.kind : JSON → String
  | .null => "null"
  | .bool _ => "bool"
  | .int _ => "number"
  | .real _ => "number"
  | .str _ => "string"
  | .arr _ => "array"
  | .obj _ => "object"

/-! ## strconv: reading and writing a float64 -/

namespace strconv

/-- The rational `m * 2 ^ u`. -/
def scale2 (m : Int) (u : Int) : ℚ :=
  if 0 ≤ u then ((m * 2 ^ u.toNat : Int) : ℚ) else mkRat m (2 ^ (-u).toNat)

/-- The rational `m * 10 ^ s`. -/
def scale10 (m : Int) (s : Int) : ℚ :=
  if 0 ≤ s then ((m * 10 ^ s.toNat : Int) : ℚ) else mkRat m (10 ^ (-s).toNat)

/-- The largest `k` with `2 ^ k ≤ n`, for `0 < n ≤ fuel`. -/
def log2 : Nat → Nat → Nat
  | 0, _ => 0
  | fuel + 1, n => if n < 2 then 0 else log2 fuel (n / 2) + 1

/-- The `float64` nearest to a rational number, ties going to the even mantissa, as
`strconv.ParseFloat` reads a literal: 53 bits of mantissa, exponents down to the
subnormal numbers (steps of `2 ^ -1074`), and no value when the result would reach
`2 ^ 1024` (the range error). -/
def roundFloat64 (q : ℚ) : Option ℚ :=
  if q.num = 0 then some 0
  else
    let n := q.num.natAbs
    let d := q.den
    let e0 : Int := (log2 n n : Int) - (log2 d d : Int)
    let below : Bool :=
      if 0 ≤ e0 then decide (n < d * 2 ^ e0.toNat) else decide (n * 2 ^ (-e0).toNat < d)
    let e : Int := if below then e0 - 1 else e0
    let u : Int := max (e - 52) (-1074)
    let N : Nat := if u < 0 then n * 2 ^ (-u).toNat else n
    let D : Nat := if u < 0 then d else d * 2 ^ u.toNat
    let m0 := N / D
    let r := N % D
    let m : Nat := if D < 2 * r ∨ (2 * r = D ∧ m0 % 2 = 1) then m0 + 1 else m0
    if 1024 ≤ e ∨ (e = 1023 ∧ m = 2 ^ 53) then none
    else some (scale2 (if q.num < 0 then -(m : Int) else m) u)

/-- The number of decimal digits of `n`, for `n ≤ fuel`. -/
def digits10 : Nat → Nat → Nat
  | 0, _ => 1
  | fuel + 1, n => if n < 10 then 1 else digits10 fuel (n / 10) + 1

/-- For `0 < n < d ≤ fuel` the least `j` with `d ≤ n * 10 ^ j`. -/
def zeros10 : Nat → Nat → Nat → Nat
  | 0, _, _ => 1
  | fuel + 1, n, d => if d ≤ n * 10 then 1 else zeros10 fuel (n * 10) d + 1

/-- The decimal exponent `k` of `n / d > 0`: `10 ^ (k - 1) ≤ n / d < 10 ^ k`. -/
def decimalExp (n d : Nat) : Int :=
  if d ≤ n then (digits10 n (n / d) : Int) else 1 - (zeros10 d n d : Int)

/-- The two decimals with `digits` significant digits next to `n / d`, below and above
it, the nearer one first, with the sign `neg`. -/
def neighbours (neg : Bool) (n d : Nat) (digits : Nat) : List ℚ :=
  let s : Int := decimalExp n d - digits
  let N : Nat := if s < 0 then n * 10 ^ (-s).toNat else n
  let D : Nat := if s < 0 then d else d * 10 ^ s.toNat
  let lo : ℚ := scale10 (if neg then -((N / D : Nat) : Int) else ((N / D : Nat) : Int)) s
  let hi : ℚ :=
    scale10 (if neg then -((N / D + 1 : Nat) : Int) else ((N / D + 1 : Nat) : Int)) s
  if 2 * (N % D) ≤ D then [lo, hi] else [hi, lo]

/-- The decimals tried for a `float64`, those with fewer digits first. -/
def candidates (x : ℚ) : List ℚ :=
  (List.range 17).flatMap
    (fun i => neighbours (decide (x.num < 0)) x.num.natAbs x.den (i + 1))

/-- The decimal that `strconv` writes for a `float64` with the precision -1: the one
with the fewest digits that is read back as the same `float64`, and of these the one
nearest to it. -/
def shortestDecimal (x : ℚ) : ℚ :=
  match (candidates x).find? (fun c => roundFloat64 c == some x) with
  | some c => c
  | none => x

end strconv

namespace json

/-- Simple case folding of a rune as far as it can reach an ASCII character: upper case
ASCII letters, the Kelvin sign (for `k`) and the long s (for `s`). -/
def foldRune (c : Char) : Char :=
  if c = Char.ofNat 0x212A then 'k'
  else if c = Char.ofNat 0x017F then 's'
  else c.toLower

/-- The decoder matches an object key against a struct field name case-insensitively. -/
def equalFold (key field : String) : Bool :=
  key.toList.map foldRune == field.toList.map foldRune

/-- The decoder reports the first type error it met. -/
def saveError (saved : Option Error) (err : Option Error) : Option Error :=
  match saved with
  | some e => some e
  | none => err

/-- Setting `m[k] = v` in a map given by its entries in increasing key order, the order
of the bytes of the keys. -/
def mapInsert {α : Type} : List (GoString × α) → GoString → α → List (GoString × α)
  | [], k, v => [(k, v)]
  | (k', v') :: rest, k, v =>
    if k.bytes < k'.bytes then (k, v) :: (k', v') :: rest
    else if k = k' then (k, v) :: rest
    else (k', v') :: mapInsert rest k v

/-- The map built from object members, set one after the other (a later duplicate key
overwrites an earlier one). -/
def buildMap {α : Type} (kvs : List (GoString × α)) : List (GoString × α) :=
  kvs.foldl (fun m kv => mapInsert m kv.1 kv.2) []

/-- Decoding a number literal that spells `x` into an empty `interface{}`: the `float64`
it is read as, or `nil` and a type error when it is outside the range of `float64`. -/
def decodeNumber (x : ℚ) : GoVal × Option Error :=
  match strconv.roundFloat64 x with
  | some f => (.float64 f, none)
  | none => (.nil, some (.unmarshalType "number" "float64"))

mutual
/-- Decoding a JSON value into an empty `interface{}`: `nil`, `bool`, `float64`,
`string`, `[]interface{}` or `map[string]interface{}`, and the first type error met (a
number literal outside the range of `float64`), which does not stop the decoder. -/
def decodeInterface : JSON → GoVal × Option Error
  | .null => (.nil, none)
  | .bool b => (.bool b, none)
  | .int n => decodeNumber (n : ℚ)
  | .real x => decodeNumber x
  | .str s => (.string (GoString.ofText s), none)
  | .arr xs => (.slice (decodeElems xs).1, (decodeElems xs).2)
  | .obj kvs => (.map (buildMap (decodeMembers kvs).1), (decodeMembers kvs).2)
/-- Decoding the elements of an array into `interface{}` values. -/
def decodeElems : List JSON → List GoVal × Option Error
  | [] => ([], none)
  | x :: xs =>
    ((decodeInterface x).1 :: (decodeElems xs).1,
      saveError (decodeInterface x).2 (decodeElems xs).2)
/-- Decoding the members of an object into `interface{}` values, in document order. -/
def decodeMembers : List (String × JSON) → List (GoString × GoVal) × Option Error
  | [] => ([], none)
  | (k, v) :: rest =>
    ((GoString.ofText k, (decodeInterface v).1) :: (decodeMembers rest).1,
      saveError (decodeInterface v).2 (decodeMembers rest).2)
end

mutual
/-- Every number literal of the JSON value is within the range of `float64`. -/
def numbersFit : JSON → Bool
  | .null => true
  | .bool _ => true
  | .int n => (strconv.roundFloat64 (n : ℚ)).isSome
  | .real x => (strconv.roundFloat64 x).isSome
  | .str _ => true
  | .arr xs => allFit xs
  | .obj kvs => membersFit kvs
/-- Every number literal of the JSON values is within the range of `float64`. -/
def allFit : List JSON → Bool
  | [] => true
  | x :: xs => numbersFit x && allFit xs
/-- Every number literal of the members is within the range of `float64`. -/
def membersFit : List (String × JSON) → Bool
  | [] => true
  | (_, v) :: rest => numbersFit v && membersFit rest
end

/-- Decoding a JSON value into a Go `string` variable holding `v`: a string is stored,
`null` has no effect, any other value is a type error and leaves the variable alone. -/
def decodeString (j : JSON) (v : GoString) : GoString × Option Error :=
  match j with
  | .str s => (GoString.ofText s, none)
  | .null => (v, none)
  | other => (v, some (.unmarshalType other.kind "string"))

/-- Decoding a JSON value into a `[]interface{}` variable holding `a`. -/
def decodeSlice (j : JSON) (a : List GoVal) : List GoVal × Option Error :=
  match j with
  | .arr xs => decodeElems xs
  | .null => ([], none)
  | other => (a, some (.unmarshalType other.kind "[]interface {}"))

/-- Decoding a JSON value into a `[]json.RawMessage` variable holding `p`: every element
of an array is kept as raw text. -/
def decodeRawMessages (j : JSON) (p : List Bytes) : List Bytes × Option Error :=
  match j with
  | .arr xs => (xs.map Bytes.text, none)
  | .null => ([], none)
  | other => (p, some (.unmarshalType other.kind "[]json.RawMessage"))

/-- The function `json.Unmarshal(data, &v)` for `v` of type `string`. -/
def UnmarshalString (data : Bytes) (v : GoString) : GoString × Option Error :=
  match data with
  | .invalid msg => (v, some (.syntaxError msg))
  | .text j => decodeString j v

/-- The function `json.Unmarshal(data, &a)` for `a` of type `[]interface{}`. -/
def UnmarshalSlice (data : Bytes) (a : List GoVal) : List GoVal × Option Error :=
  match data with
  | .invalid msg => (a, some (.syntaxError msg))
  | .text j => decodeSlice j a

/-- How `json.Marshal` writes a finite `float64`: the decimal `strconv` writes for it,
in integer syntax when that decimal is an integer and the value is below `1e21` in
magnitude, with a fraction or an exponent otherwise. -/
def marshalFloat (x : ℚ) : JSON :=
  if x.num = 0 then .int 0
  else if (strconv.shortestDecimal x).den = 1 ∧ x.num.natAbs < 10 ^ 21 * x.den then
    .int (strconv.shortestDecimal x).num
  else .real (strconv.shortestDecimal x)

mutual
/-- The JSON value `json.Marshal` writes for a value held in an `interface{}`. -/
def marshalVal : GoVal → Except Error JSON
  | .nil => .ok .null
  | .bool b => .ok (.bool b)
  | .float64 x => .ok (marshalFloat x)
  | .string s => .ok (.str s.toText)
  | .slice xs =>
    match marshalElems xs with
    | .ok js => .ok (.arr js)
    | .error err => .error err
  | .map m =>
    match marshalEntries m with
    | .ok kvs => .ok (.obj kvs)
    | .error err => .error err
  | .int n => .ok (.int n)
  | .unsupported => .error .unsupportedValue
/-- The elements `json.Marshal` writes for a `[]interface{}`. -/
def marshalElems : List GoVal → Except Error (List JSON)
  | [] => .ok []
  | x :: xs =>
    match marshalVal x with
    | .error err => .error err
    | .ok j =>
      match marshalElems xs with
      | .error err => .error err
      | .ok js => .ok (j :: js)
/-- The members `json.Marshal` writes for a `map[string]interface{}`, in key order. -/
def marshalEntries : List (GoString × GoVal) → Except Error (List (String × JSON))
  | [] => .ok []
  | (k, v) :: rest =>
    match marshalVal v with
    | .error err => .error err
    | .ok j =>
      match marshalEntries rest with
      | .error err => .error err
      | .ok kvs => .ok ((k.toText, j) :: kvs)
end

/-- The function `json.Marshal(v)` for `v` of type `interface{}`. -/
def Marshal (v : GoVal) : Except Error Bytes :=
  match marshalVal v with
  | .ok j => .ok (.text j)
  | .error err => .error err

/-- What `json.Marshal` writes for a `json.RawMessage`: the message itself, which has
to be JSON text. -/
def marshalRawMessage : Bytes → Except Error JSON
  | .text j => .ok j
  | .invalid _ => .error .marshalerError

/-- What `json.Marshal` writes for a non-nil `[]json.RawMessage`. -/
def marshalRawMessages : List Bytes → Except Error (List JSON)
  | [] => .ok []
  | p :: ps =>
    match marshalRawMessage p with
    | .error err => .error err
    | .ok j =>
      match marshalRawMessages ps with
      | .error err => .error err
      | .ok js => .ok (j :: js)

end json

/-- The keys of the entries are in strictly increasing order of their bytes, as the
representation of a map requires. -/
def keysIncreasing {α : Type} (m : List (GoString × α)) : Bool :=
  decide ((m.map (fun kv => kv.1.bytes)).Pairwise (· < ·))

mutual
/-- The dynamic values that are JSON values, those the decoder can store in an
`interface{}`: `nil`, booleans, `float64` values, strings that are valid UTF-8, and
slices and maps of JSON values; no Go `int` and nothing unsupported. -/
def GoVal.isJSONValue : GoVal → Bool
  | .nil => true
  | .bool _ => true
  | .float64 x => decide (strconv.roundFloat64 x = some x)
  | .string s => s.isText
  | .slice xs => GoVal.allJSONValues xs
  | .map m => keysIncreasing m && GoVal.allJSONEntries m
  | .int _ => false
  | .unsupported => false
/-- Every element is a JSON value. -/
def GoVal.allJSONValues : List GoVal → Bool
  | [] => true
  | x :: xs => GoVal.isJSONValue x && GoVal.allJSONValues xs
/-- Every entry has a key that is valid UTF-8 and holds a JSON value. -/
def GoVal.allJSONEntries : List (GoString × GoVal) → Bool
  | [] => true
  | (k, v) :: rest => k.isText && GoVal.isJSONValue v && GoVal.allJSONEntries rest
end

/-! ## btcjson: the raw command envelope -/

namespace btcjson

/-- The struct `btcjson.RawCmd`, with JSON keys `jsonrpc`, `id`, `method`, `params`. -/
structure RawCmd where
  Jsonrpc : GoString
  Id : GoVal
  Method : GoString
  Params : List Bytes

/-- The zero value of `btcjson.RawCmd`, what `var r btcjson.RawCmd` declares. -/
def RawCmd.zero : RawCmd :=
  { Jsonrpc := GoString.ofText "", Id := .nil, Method := GoString.ofText "", Params := [] }

/-- The loop of `btcjson.NewRawCmd`: every parameter is marshalled and appended. -/
def NewRawCmd.loop : List GoVal → List Bytes → Except Error (List Bytes)
  | [], rawParams => .ok rawParams
  | param :: rest, rawParams =>
    match json.Marshal param with
    | .error err => .error err
    | .ok marshalledParam => NewRawCmd.loop rest (rawParams ++ [marshalledParam])

/-- The function `btcjson.NewRawCmd(id, method, params)`. -/
def NewRawCmd (id : GoVal) (method : GoString) (params : List GoVal) :
    Except Error RawCmd :=
  match NewRawCmd.loop params [] with
  | .error err => .error err
  | .ok rawParams =>
    .ok { Jsonrpc := GoString.ofText "1.0", Id := id, Method := method, Params := rawParams }

end btcjson

namespace json

open btcjson in
/-- The function `json.Marshal(raw)` for `raw` of type `*btcjson.RawCmd` with non-nil
`Params`: an object with the members `jsonrpc`, `id`, `method`, `params` in this order. -/
def MarshalRawCmd (raw : RawCmd) : Except Error Bytes :=
  match marshalVal raw.Id with
  | .error err => .error err
  | .ok id =>
    match marshalRawMessages raw.Params with
    | .error err => .error err
    | .ok params =>
      .ok (.text (.obj [("jsonrpc", .str raw.Jsonrpc.toText), ("id", id),
        ("method", .str raw.Method.toText), ("params", .arr params)]))

open btcjson in
/-- Decoding one object member into the field of a `btcjson.RawCmd` that its key
matches; a key that matches no field is skipped. -/
def decodeRawCmdMember (r : RawCmd) (key : String) (v : JSON) : RawCmd × Option Error :=
  if equalFold key "jsonrpc" then
    ({ r with Jsonrpc := (decodeString v r.Jsonrpc).1 }, (decodeString v r.Jsonrpc).2)
  else if equalFold key "id" then
    ({ r with Id := (decodeInterface v).1 }, (decodeInterface v).2)
  else if equalFold key "method" then
    ({ r with Method := (decodeString v r.Method).1 }, (decodeString v r.Method).2)
  else if equalFold key "params" then
    ({ r with Params := (decodeRawMessages v r.Params).1 }, (decodeRawMessages v r.Params).2)
  else
    (r, none)

open btcjson in
/-- Decoding the members of an object into a `btcjson.RawCmd`, one after the other; a
type error does not stop the decoder, which reports the first one at the end. -/
def decodeRawCmdMembers : List (String × JSON) → RawCmd → Option Error → RawCmd × Option Error
  | [], r, saved => (r, saved)
  | (k, v) :: rest, r, saved =>
    decodeRawCmdMembers rest (decodeRawCmdMember r k v).1
      (saveError saved (decodeRawCmdMember r k v).2)

open btcjson in
/-- The function `json.Unmarshal(b, &r)` for `r` of type `btcjson.RawCmd`. -/
def UnmarshalRawCmd (b : Bytes) (r : RawCmd) : RawCmd × Option Error :=
  match b with
  | .invalid msg => (r, some (.syntaxError msg))
  | .text (.obj kvs) => decodeRawCmdMembers kvs r none
  | .text .null => (r, none)
  | .text other => (r, some (.unmarshalType other.kind "btcjson.RawCmd"))

end json

/-! ## name_show -/

/-- The struct `NameShowCmd`. -/
structure NameShowCmd where
  id : GoVal
  Name : GoString

/-- The constructor `NewNameShowCmd(id, name)`. -/
def NewNameShowCmd (id : GoVal) (name : GoString) : Except Error NameShowCmd :=
  .ok { id := id, Name := name }

/-- The method `Id()`. -/
def NameShowCmd.Id (c : NameShowCmd) : GoVal := c.id

/-- The method `Method()`. -/
def NameShowCmd.Method (_c : NameShowCmd) : GoString := GoString.ofText "name_show"

/-- The method `MarshalJSON()`. -/
def NameShowCmd.MarshalJSON (c : NameShowCmd) : Except Error Bytes :=
  let params := [GoVal.string c.Name]
  match btcjson.NewRawCmd c.id c.Method params with
  | .error err => .error err
  | .ok raw => json.MarshalRawCmd raw

/-- The method `UnmarshalJSON(b)`: the receiver after the call and the error. -/
def NameShowCmd.UnmarshalJSON (c : NameShowCmd) (b : Bytes) : NameShowCmd × Option Error :=
  match json.UnmarshalRawCmd b btcjson.RawCmd.zero with
  | (_, some err) => (c, some err)
  | (r, none) =>
    if r.Params.length ≠ 1 then (c, some .ErrWrongNumberOfParams)
    else
      match json.UnmarshalString (r.Params.getD 0 (.invalid "")) (GoString.ofText "") with
      | (_, some err) =>
        (c, some (.errorf ("first argument 'name' must be a string: " ++ err.message)))
      | (name, none) =>
        match NewNameShowCmd r.Id name with
        | .error err => (c, some err)
        | .ok newCmd => (newCmd, none)

/-- The request decoder `showCmdParser(rc)`: the command, or the error. -/
def showCmdParser (rc : btcjson.RawCmd) : Except Error NameShowCmd :=
  if rc.Params.length < 1 then .error .ErrWrongNumberOfParams
  else
    match json.UnmarshalString (rc.Params.getD 0 (.invalid "")) (GoString.ofText "") with
    | (_, some err) =>
      .error (.errorf ("first argument 'name' must be a string: " ++ err.message))
    | (name, none) => NewNameShowCmd rc.Id name

/-! ## name_sync -/

/-- The struct `NameSyncCmd`. -/
structure NameSyncCmd where
  id : GoVal
  BlockHash : GoString
  Count : Int
  Wait : Bool

/-- The constructor `NewNameSyncCmd(id, blockHash, count, wait)`. -/
def NewNameSyncCmd (id : GoVal) (blockHash : GoString) (count : Int) (wait : Bool) :
    Except Error NameSyncCmd :=
  .ok { id := id, BlockHash := blockHash, Count := count, Wait := wait }

/-- The method `Id()`. -/
def NameSyncCmd.Id (c : NameSyncCmd) : GoVal := c.id

/-- The method `Method()`. -/
def NameSyncCmd.Method (_c : NameSyncCmd) : GoString := GoString.ofText "name_sync"

/-- The method `MarshalJSON()`. -/
def NameSyncCmd.MarshalJSON (c : NameSyncCmd) : Except Error Bytes :=
  let params := [GoVal.string c.BlockHash, GoVal.int c.Count, GoVal.bool c.Wait]
  match btcjson.NewRawCmd c.id c.Method params with
  | .error err => .error err
  | .ok raw => json.MarshalRawCmd raw

/-- The struct `NameSyncEvent`. -/
structure NameSyncEvent where
  Type_ : GoString
  Name : GoString
  Value : GoString
  BlockHash : GoString
  BlockHeight : Int
  deriving DecidableEq

/-- The zero value of `NameSyncEvent`. -/
def NameSyncEvent.zero : NameSyncEvent :=
  { Type_ := GoString.ofText "", Name := GoString.ofText "", Value := GoString.ofText "",
    BlockHash := GoString.ofText "", BlockHeight := 0 }

/-- The package variable `errMalformed`. -/
def errMalformed : Error := .errMalformed

/-- The conversion `int(f)` of a `float64` to a 64-bit `int`: the fraction is discarded
(truncation toward zero); when the truncated value does not fit, the result is that of
the amd64 conversion instruction, the smallest `int`. -/
def intOfFloat64 (f : ℚ) : Int :=
  if -2 ^ 63 ≤ Int.tdiv f.num f.den ∧ Int.tdiv f.num f.den < 2 ^ 63 then Int.tdiv f.num f.den
  else -2 ^ 63

/-- The method `UnmarshalJSON(data)` of `*NameSyncEvent`: the receiver after the call
and the error. -/
def NameSyncEvent.UnmarshalJSON (e : NameSyncEvent) (data : Bytes) :
    NameSyncEvent × Option Error :=
  match json.UnmarshalSlice data [] with
  | (_, some err) => (e, some err)
  | (a, none) =>
    if a.length < 1 then (e, some errMalformed)
    else
      match a.getD 0 .nil with
      | .string eventType =>
        let e := { e with Type_ := eventType }
        if eventType = GoString.ofText "firstupdate" ∨ eventType = GoString.ofText "update" then
          if a.length < 3 then (e, some errMalformed)
          else
            match a.getD 1 .nil with
            | .string k =>
              match a.getD 2 .nil with
              | .string v => ({ e with Name := k, Value := v }, none)
              | _ => (e, some errMalformed)
            | _ => (e, some errMalformed)
        else if eventType = GoString.ofText "atblock" then
          if a.length < 3 then (e, some errMalformed)
          else
            match a.getD 1 .nil with
            | .string hash =>
              match a.getD 2 .nil with
              | .float64 heightf =>
                let height := intOfFloat64 heightf
                ({ e with BlockHash := hash, BlockHeight := height }, none)
              | _ => (e, some errMalformed)
            | _ => (e, some errMalformed)
        else (e, none)
      | _ => (e, some errMalformed)

/-! ## name_scan -/

/-- The struct `NameScanCmd`. -/
structure NameScanCmd where
  id : GoVal
  From : GoString
  Count : Int

/-- The constructor `NewNameScanCmd(id, from, count)`. -/
def NewNameScanCmd (id : GoVal) (start : GoString) (count : Int) :
    Except Error NameScanCmd :=
  .ok { id := id, From := start, Count := count }

/-- The method `Id()`. -/
def NameScanCmd.Id (c : NameScanCmd) : GoVal := c.id

/-- The method `Method()`. -/
def NameScanCmd.Method (_c : NameScanCmd) : GoString := GoString.ofText "name_scan"

/-- The method `MarshalJSON()`. -/
def NameScanCmd.MarshalJSON (c : NameScanCmd) : Except Error Bytes :=
  let params := [GoVal.string c.From, GoVal.int c.Count]
  match btcjson.NewRawCmd c.id c.Method params with
  | .error err => .error err
  | .ok raw => json.MarshalRawCmd raw

/-! ## name_filter -/

/-- The struct `NameFilterCmd`. -/
structure NameFilterCmd where
  id : GoVal
  Regexp : GoString
  MaxAge : Int
  From : Int
  Count : Int

/-- The constructor `NewNameFilterCmd(id, regexp, maxage, from, count)`. -/
def NewNameFilterCmd (id : GoVal) (regexp : GoString) (maxage start count : Int) :
    Except Error NameFilterCmd :=
  .ok { id := id, Regexp := regexp, MaxAge := maxage, From := start, Count := count }

/-- The method `Id()`. -/
def NameFilterCmd.Id (c : NameFilterCmd) : GoVal := c.id

/-- The method `Method()`. -/
def NameFilterCmd.Method (_c : NameFilterCmd) : GoString :=
  GoString.ofText "name_filter"

/-- The method `MarshalJSON()`. -/
def NameFilterCmd.MarshalJSON (c : NameFilterCmd) : Except Error Bytes :=
  let params := [GoVal.string c.Regexp, GoVal.int c.MaxAge, GoVal.int c.From, GoVal.int c.Count]
  match btcjson.NewRawCmd c.id c.Method params with
  | .error err => .error err
  | .ok raw => json.MarshalRawCmd raw

/-! ## Decoding into `int` and `bool` variables -/

namespace json

/-- Decoding a JSON value into a Go `int` variable holding `v`: a number literal in
integer syntax that fits the 64-bit `int` is stored, `null` has no effect, anything else
is a type error and leaves the variable alone. -/
def decodeInt (j : JSON) (v : Int) : Int × Option Error :=
  match j with
  | .int n =>
    if -2 ^ 63 ≤ n ∧ n < 2 ^ 63 then (n, none) else (v, some (.unmarshalType "number" "int"))
  | .null => (v, none)
  | other => (v, some (.unmarshalType other.kind "int"))

/-- Decoding a JSON value into a Go `bool` variable holding `v`. -/
def decodeBool (j : JSON) (v : Bool) : Bool × Option Error :=
  match j with
  | .bool b => (b, none)
  | .null => (v, none)
  | other => (v, some (.unmarshalType other.kind "bool"))

end json

/-! ## name_show replies -/

/-- The struct `NameShowReply`, with JSON keys `name`, `value`, `height`, `expires_in`,
`expired`, `address`, `txid`, `vout`. -/
structure NameShowReply where
  Name : GoString
  Value : GoString
  Height : Int
  ExpiresIn : Int
  Expired : Bool
  Address : GoString
  TxID : GoString
  VOut : Int
  deriving DecidableEq

/-- The zero value `NameShowReply{}`. -/
def NameShowReply.zero : NameShowReply :=
  { Name := GoString.ofText "", Value := GoString.ofText "", Height := 0, ExpiresIn := 0,
    Expired := false, Address := GoString.ofText "", TxID := GoString.ofText "", VOut := 0 }

/-- The fields of `NameShowReply`. -/
inductive NameShowReply.Field where
  | Name | Value | Height | ExpiresIn | Expired | Address | TxID | VOut
  deriving DecidableEq

/-- The field of `NameShowReply` that the decoder selects for an object key: the one
whose JSON key equals it up to case. -/
def NameShowReply.fieldOf (key : String) : Option NameShowReply.Field :=
  if json.equalFold key "name" then some .Name
  else if json.equalFold key "value" then some .Value
  else if json.equalFold key "height" then some .Height
  else if json.equalFold key "expires_in" then some .ExpiresIn
  else if json.equalFold key "expired" then some .Expired
  else if json.equalFold key "address" then some .Address
  else if json.equalFold key "txid" then some .TxID
  else if json.equalFold key "vout" then some .VOut
  else none

namespace json

/-- Decoding one object member into the field of a `NameShowReply` that its key selects;
a key that selects no field is skipped. -/
def decodeNameShowReplyMember (r : NameShowReply) (key : String) (v : JSON) :
    NameShowReply × Option Error :=
  match NameShowReply.fieldOf key with
  | none => (r, none)
  | some .Name => ({ r with Name := (decodeString v r.Name).1 }, (decodeString v r.Name).2)
  | some .Value => ({ r with Value := (decodeString v r.Value).1 }, (decodeString v r.Value).2)
  | some .Height => ({ r with Height := (decodeInt v r.Height).1 }, (decodeInt v r.Height).2)
  | some .ExpiresIn =>
    ({ r with ExpiresIn := (decodeInt v r.ExpiresIn).1 }, (decodeInt v r.ExpiresIn).2)
  | some .Expired =>
    ({ r with Expired := (decodeBool v r.Expired).1 }, (decodeBool v r.Expired).2)
  | some .Address =>
    ({ r with Address := (decodeString v r.Address).1 }, (decodeString v r.Address).2)
  | some .TxID => ({ r with TxID := (decodeString v r.TxID).1 }, (decodeString v r.TxID).2)
  | some .VOut => ({ r with VOut := (decodeInt v r.VOut).1 }, (decodeInt v r.VOut).2)

/-- Decoding the members of an object into a `NameShowReply`, one after the other. -/
def decodeNameShowReplyMembers :
    List (String × JSON) → NameShowReply → Option Error → NameShowReply × Option Error
  | [], r, saved => (r, saved)
  | (k, v) :: rest, r, saved =>
    decodeNameShowReplyMembers rest (decodeNameShowReplyMember r k v).1
      (saveError saved (decodeNameShowReplyMember r k v).2)

/-- The function `json.Unmarshal(m, nsr)` for `nsr` of type `*NameShowReply`. -/
def UnmarshalNameShowReply (m : Bytes) (nsr : NameShowReply) : NameShowReply × Option Error :=
  match m with
  | .invalid msg => (nsr, some (.syntaxError msg))
  | .text (.obj kvs) => decodeNameShowReplyMembers kvs nsr none
  | .text .null => (nsr, none)
  | .text other => (nsr, some (.unmarshalType other.kind "ncbtcjsontypes.NameShowReply"))

end json

/-- The reply parser `showReplyParser(m)`: the reply, or the error. -/
def showReplyParser (m : Bytes) : Except Error NameShowReply :=
  match json.UnmarshalNameShowReply m NameShowReply.zero with
  | (_, some err) => .error err
  | (nsr, none) => .ok nsr

/-- The JSON values a field of `NameShowReply` takes without a type error, `null` apart:
a string for the string fields, a number in integer syntax within the range of `int` for
the integer fields, a boolean for `Expired`. -/
def NameShowReply.Field.accepts : NameShowReply.Field → JSON → Bool
  | .Name, .str _ => true
  | .Value, .str _ => true
  | .Address, .str _ => true
  | .TxID, .str _ => true
  | .Height, .int n => decide (-2 ^ 63 ≤ n ∧ n < 2 ^ 63)
  | .ExpiresIn, .int n => decide (-2 ^ 63 ≤ n ∧ n < 2 ^ 63)
  | .VOut, .int n => decide (-2 ^ 63 ≤ n ∧ n < 2 ^ 63)
  | .Expired, .bool _ => true
  | _, _ => false

/-- A member of a name_show reply is well typed when its key selects no field, or
selects a field that accepts its value. -/
def NameShowReply.wellTyped (kv : String × JSON) : Bool :=
  match NameShowReply.fieldOf kv.1 with
  | none => true
  | some f => f.accepts kv.2

/-- The value of the last member of an object whose key selects the field `f`. -/
def NameShowReply.lastValue : List (String × JSON) → NameShowReply.Field → Option JSON
  | [], _ => none
  | (k, v) :: rest, f =>
    match NameShowReply.lastValue rest f with
    | some w => some w
    | none => if NameShowReply.fieldOf k = some f then some v else none

/-- The string a reply field takes from the value found for it, or its zero value. -/
def stringField : Option JSON → GoString
  | some (.str s) => GoString.ofText s
  | _ => GoString.ofText ""

/-- The integer a reply field takes from the value found for it, or its zero value. -/
def intField : Option JSON → Int
  | some (.int n) => n
  | _ => 0

/-- The boolean a reply field takes from the value found for it, or its zero value. -/
def boolField : Option JSON → Bool
  | some (.bool b) => b
  | _ => false

/-- The record that the description of the name_show reply assigns to an object: every
field holds the value of the last member whose key selects it, the zero value when there
is none. -/
def NameShowReply.ofMembers (kvs : List (String × JSON)) : NameShowReply :=
  { Name := stringField (NameShowReply.lastValue kvs .Name),
    Value := stringField (NameShowReply.lastValue kvs .Value),
    Height := intField (NameShowReply.lastValue kvs .Height),
    ExpiresIn := intField (NameShowReply.lastValue kvs .ExpiresIn),
    Expired := boolField (NameShowReply.lastValue kvs .Expired),
    Address := stringField (NameShowReply.lastValue kvs .Address),
    TxID := stringField (NameShowReply.lastValue kvs .TxID),
    VOut := intField (NameShowReply.lastValue kvs .VOut) }

/-! ## name_sync replies -/

/-- The reply type `NameSyncReply`, a slice of events. -/
abbrev NameSyncReply := List NameSyncEvent

namespace json

/-- Decoding the elements of an array into a `NameSyncReply` that was empty: every
element is handed to `UnmarshalJSON` of a fresh zero event appended to the slice, and the
first error that method returns stops the decoder. -/
def decodeNameSyncEvents : List JSON → NameSyncReply → NameSyncReply × Option Error
  | [], nsr => (nsr, none)
  | x :: xs, nsr =>
    match NameSyncEvent.UnmarshalJSON NameSyncEvent.zero (.text x) with
    | (e, some err) => (nsr ++ [e], some err)
    | (e, none) => decodeNameSyncEvents xs (nsr ++ [e])

/-- The function `json.Unmarshal(m, &nsr)` for `nsr` the empty `NameSyncReply{}`. -/
def UnmarshalNameSyncReply (m : Bytes) : NameSyncReply × Option Error :=
  match m with
  | .invalid msg => ([], some (.syntaxError msg))
  | .text (.arr xs) => decodeNameSyncEvents xs []
  | .text .null => ([], none)
  | .text other => ([], some (.unmarshalType other.kind "ncbtcjsontypes.NameSyncReply"))

end json

/-- The reply parser `syncReplyParser(m)`: the reply, or the error. -/
def syncReplyParser (m : Bytes) : Except Error NameSyncReply :=
  match json.UnmarshalNameSyncReply m with
  | (_, some err) => .error err
  | (nsr, none) => .ok nsr

/-- The acceptance condition of the event decoder as the description gives it: the array
is not empty and starts with a string; after the tags firstupdate and update come two
strings, after the tag atblock a string and a number; any other tag is accepted as it
is. -/
def NameSyncEvent.accepts : List JSON → Bool
  | .str tag :: rest =>
    if tag = "firstupdate" ∨ tag = "update" then
      match rest with
      | .str _ :: .str _ :: _ => true
      | _ => false
    else if tag = "atblock" then
      match rest with
      | .str _ :: .int _ :: _ => true
      | .str _ :: .real _ :: _ => true
      | _ => false
    else true
  | _ => false

/-- A malformed event array: a JSON array that the acceptance condition rejects (it is
empty, or does not start with a string, or lacks the fields of its tag or has them with
the wrong JSON type). -/
def malformedEventArray : JSON → Bool
  | .arr xs => !NameSyncEvent.accepts xs
  | _ => false

/-- A JSON value that is neither an array nor null: a number, a string, a boolean or an
object. -/
def notAnArray : JSON → Bool
  | .arr _ => false
  | .null => false
  | _ => true

/-! ## Outbound-only commands -/

/-- How a call ends: it returns its `error` result, or it panics with a value. -/
inductive Completion where
  | returned (err : Option Error)
  | panicked (value : String)
  deriving DecidableEq

/-- The method `UnmarshalJSON(b)` of `*NameSyncCmd`: the receiver after the call and how
the call ends. -/
def NameSyncCmd.UnmarshalJSON (c : NameSyncCmd) (_b : Bytes) : NameSyncCmd × Completion :=
  (c, .panicked "not implemented")

/-- The method `UnmarshalJSON(b)` of `*NameScanCmd`. -/
def NameScanCmd.UnmarshalJSON (c : NameScanCmd) (_b : Bytes) : NameScanCmd × Completion :=
  (c, .panicked "not implemented")

/-- The method `UnmarshalJSON(b)` of `*NameFilterCmd`. -/
def NameFilterCmd.UnmarshalJSON (c : NameFilterCmd) (_b : Bytes) :
    NameFilterCmd × Completion :=
  (c, .panicked "not implemented")

/-! ## name_scan and name_filter replies -/

/-- The struct `NameFilterItem`, with JSON keys `Name`, `Value`, `TxID`, `Address`,
`Height`, `expires_in`, `Expired`. -/
structure NameFilterItem where
  Name : GoString
  Value : GoString
  TxID : GoString
  Address : GoString
  Height : Int
  ExpiresIn : Int
  Expired : Bool
  deriving DecidableEq

/-- The reply type `NameFilterReply`, a slice of items. -/
abbrev NameFilterReply := List NameFilterItem

/-- The zero value of `NameFilterItem`. -/
def NameFilterItem.zero : NameFilterItem :=
  { Name := GoString.ofText "", Value := GoString.ofText "", TxID := GoString.ofText "",
    Address := GoString.ofText "", Height := 0, ExpiresIn := 0, Expired := false }

/-- The fields of `NameFilterItem`. -/
inductive NameFilterItem.Field where
  | Name | Value | TxID | Address | Height | ExpiresIn | Expired
  deriving DecidableEq

/-- The field of `NameFilterItem` that the decoder selects for an object key: the one
whose JSON key equals it up to case. -/
def NameFilterItem.fieldOf (key : String) : Option NameFilterItem.Field :=
  if json.equalFold key "Name" then some .Name
  else if json.equalFold key "Value" then some .Value
  else if json.equalFold key "TxID" then some .TxID
  else if json.equalFold key "Address" then some .Address
  else if json.equalFold key "Height" then some .Height
  else if json.equalFold key "expires_in" then some .ExpiresIn
  else if json.equalFold key "Expired" then some .Expired
  else none

namespace json

/-- Decoding one object member into the field of a `NameFilterItem` that its key
selects; a key that selects no field is skipped. -/
def decodeNameFilterItemMember (r : NameFilterItem) (key : String) (v : JSON) :
    NameFilterItem × Option Error :=
  match NameFilterItem.fieldOf key with
  | none => (r, none)
  | some .Name => ({ r with Name := (decodeString v r.Name).1 }, (decodeString v r.Name).2)
  | some .Value => ({ r with Value := (decodeString v r.Value).1 }, (decodeString v r.Value).2)
  | some .TxID => ({ r with TxID := (decodeString v r.TxID).1 }, (decodeString v r.TxID).2)
  | some .Address =>
    ({ r with Address := (decodeString v r.Address).1 }, (decodeString v r.Address).2)
  | some .Height => ({ r with Height := (decodeInt v r.Height).1 }, (decodeInt v r.Height).2)
  | some .ExpiresIn =>
    ({ r with ExpiresIn := (decodeInt v r.ExpiresIn).1 }, (decodeInt v r.ExpiresIn).2)
  | some .Expired =>
    ({ r with Expired := (decodeBool v r.Expired).1 }, (decodeBool v r.Expired).2)

/-- Decoding the members of an object into a `NameFilterItem`, one after the other. -/
def decodeNameFilterItemMembers :
    List (String × JSON) → NameFilterItem → Option Error → NameFilterItem × Option Error
  | [], r, saved => (r, saved)
  | (k, v) :: rest, r, saved =>
    decodeNameFilterItemMembers rest (decodeNameFilterItemMember r k v).1
      (saveError saved (decodeNameFilterItemMember r k v).2)

/-- Decoding a JSON value into a `NameFilterItem` variable holding `r`, the decoder
having saved the error `saved` so far. -/
def decodeNameFilterItem (j : JSON) (r : NameFilterItem) (saved : Option Error) :
    NameFilterItem × Option Error :=
  match j with
  | .obj kvs => decodeNameFilterItemMembers kvs r saved
  | .null => (r, saved)
  | other =>
    (r, saveError saved (some (.unmarshalType other.kind "ncbtcjsontypes.NameFilterItem")))

/-- Decoding the elements of an array into a `NameFilterReply` that was empty: every
element is decoded into a fresh zero item appended to the slice; a type error does not
stop the decoder. -/
def decodeNameFilterItems :
    List JSON → NameFilterReply → Option Error → NameFilterReply × Option Error
  | [], nsr, saved => (nsr, saved)
  | x :: xs, nsr, saved =>
    decodeNameFilterItems xs (nsr ++ [(decodeNameFilterItem x NameFilterItem.zero saved).1])
      (decodeNameFilterItem x NameFilterItem.zero saved).2

/-- The function `json.Unmarshal(m, &nsr)` for `nsr` the empty `NameFilterReply{}`. -/
def UnmarshalNameFilterReply (m : Bytes) : NameFilterReply × Option Error :=
  match m with
  | .invalid msg => ([], some (.syntaxError msg))
  | .text (.arr xs) => decodeNameFilterItems xs [] none
  | .text .null => ([], none)
  | .text other => ([], some (.unmarshalType other.kind "ncbtcjsontypes.NameFilterReply"))

end json

/-- The reply parser `filterReplyParser(m)`: the reply, or the error. -/
def filterReplyParser (m : Bytes) : Except Error NameFilterReply :=
  match json.UnmarshalNameFilterReply m with
  | (_, some err) => .error err
  | (nsr, none) => .ok nsr

/-- The JSON values a field of `NameFilterItem` takes without a type error, `null`
apart. -/
def NameFilterItem.Field.accepts : NameFilterItem.Field → JSON → Bool
  | .Name, .str _ => true
  | .Value, .str _ => true
  | .TxID, .str _ => true
  | .Address, .str _ => true
  | .Height, .int n => decide (-2 ^ 63 ≤ n ∧ n < 2 ^ 63)
  | .ExpiresIn, .int n => decide (-2 ^ 63 ≤ n ∧ n < 2 ^ 63)
  | .Expired, .bool _ => true
  | _, _ => false

/-- A member of a name_scan or name_filter item is well typed when its key selects no
field, or selects a field that accepts its value. -/
def NameFilterItem.wellTyped (kv : String × JSON) : Bool :=
  match NameFilterItem.fieldOf kv.1 with
  | none => true
  | some f => f.accepts kv.2

/-- The value of the last member of an object whose key selects the field `f`. -/
def NameFilterItem.lastValue : List (String × JSON) → NameFilterItem.Field → Option JSON
  | [], _ => none
  | (k, v) :: rest, f =>
    match NameFilterItem.lastValue rest f with
    | some w => some w
    | none => if NameFilterItem.fieldOf k = some f then some v else none

/-- The item that the description of the name_scan and name_filter replies assigns to an
object: every field holds the value of the last member whose key selects it, the zero
value when there is none. -/
def NameFilterItem.ofMembers (kvs : List (String × JSON)) : NameFilterItem :=
  { Name := stringField (NameFilterItem.lastValue kvs .Name),
    Value := stringField (NameFilterItem.lastValue kvs .Value),
    TxID := stringField (NameFilterItem.lastValue kvs .TxID),
    Address := stringField (NameFilterItem.lastValue kvs .Address),
    Height := intField (NameFilterItem.lastValue kvs .Height),
    ExpiresIn := intField (NameFilterItem.lastValue kvs .ExpiresIn),
    Expired := boolField (NameFilterItem.lastValue kvs .Expired) }

/-! ## Go strings and texts -/

theorem toText_ofText (s : String) : (GoString.ofText s).toText = s := by
  simp [GoString.ofText, GoString.toText, Function.comp_def]

theorem ofText_inj (a b : String) : GoString.ofText a = GoString.ofText b ↔ a = b := by
  constructor
  · intro h
    have h' := congrArg GoString.toText h
    rwa [toText_ofText, toText_ofText] at h'
  · intro h
    rw [h]

theorem ofText_toText (g : GoString) (h : g.isText = true) :
    GoString.ofText g.toText = g := by
  induction g with
  | nil => rfl
  | cons p rest ih =>
    cases p with
    | char c =>
      have hr : GoString.isText rest = true := by simpa [GoString.isText] using h
      have e := ih hr
      simp only [GoString.ofText, GoString.toText, String.toList, List.map_cons] at e ⊢
      rw [e]
    | byte b => simp [GoString.isText] at h

/-! ## Maps in key order -/

theorem mapInsert_last {α : Type} (acc : List (GoString × α)) (k : GoString) (v : α)
    (h : ∀ p ∈ acc, p.1.bytes < k.bytes) : json.mapInsert acc k v = acc ++ [(k, v)] := by
  induction acc with
  | nil => rfl
  | cons p rest ih =>
    obtain ⟨k', v'⟩ := p
    have hk : k'.bytes < k.bytes := h (k', v') (List.mem_cons_self _ _)
    have h1 : ¬ k.bytes < k'.bytes := lt_asymm hk
    have h2 : ¬ k = k' := fun e => lt_irrefl k.bytes (e ▸ hk)
    simp only [json.mapInsert, h1, h2, if_false, List.cons_append]
    rw [ih (fun p hp => h p (List.mem_cons_of_mem _ hp))]

theorem foldl_mapInsert_increasing {α : Type} (l acc : List (GoString × α))
    (hs : ((acc ++ l).map (fun kv => kv.1.bytes)).Pairwise (· < ·)) :
    l.foldl (fun m kv => json.mapInsert m kv.1 kv.2) acc = acc ++ l := by
  induction l generalizing acc with
  | nil => simp
  | cons p rest ih =>
    have hlt : ∀ q ∈ acc, q.1.bytes < p.1.bytes := by
      intro q hq
      rw [List.map_append, List.pairwise_append] at hs
      exact hs.2.2 q.1.bytes (List.mem_map_of_mem _ hq) p.1.bytes (by simp)
    rw [List.foldl_cons, mapInsert_last acc p.1 p.2 hlt]
    have e : acc ++ [(p.1, p.2)] ++ rest = acc ++ p :: rest := by simp
    rw [ih (acc ++ [(p.1, p.2)]) (by rw [e]; exact hs), e]

theorem buildMap_increasing {α : Type} (m : List (GoString × α))
    (h : keysIncreasing m = true) : json.buildMap m = m := by
  have hs : ((([] : List (GoString × α)) ++ m).map (fun kv => kv.1.bytes)).Pairwise
      (· < ·) := by
    simpa [keysIncreasing] using h
  simpa [json.buildMap] using foldl_mapInsert_increasing m [] hs

/-! ## Marshalling a JSON value and decoding it again -/

theorem shortestDecimal_reads_back (x : ℚ) (hx : strconv.roundFloat64 x = some x) :
    strconv.roundFloat64 (strconv.shortestDecimal x) = some x := by
  unfold strconv.shortestDecimal
  cases hf : (strconv.candidates x).find? (fun c => strconv.roundFloat64 c == some x) with
  | none => exact hx
  | some c =>
    have hc := List.find?_some hf
    simpa using hc

theorem decode_marshalFloat (x : ℚ) (hx : strconv.roundFloat64 x = some x) :
    json.decodeInterface (json.marshalFloat x) = (.float64 x, none) := by
  have hs := shortestDecimal_reads_back x hx
  unfold json.marshalFloat
  split
  · rename_i h0
    have hx0 : x = 0 := Rat.zero_of_num_zero h0
    subst hx0
    simp [json.decodeInterface, json.decodeNumber, strconv.roundFloat64]
  · split
    · rename_i h
      simp only [json.decodeInterface, json.decodeNumber]
      rw [Rat.coe_int_num_of_den_eq_one h.1, hs]
    · simp only [json.decodeInterface, json.decodeNumber, hs]

mutual
theorem decode_marshalVal : ∀ v : GoVal, v.isJSONValue = true →
    ∃ j, json.marshalVal v = .ok j ∧ json.decodeInterface j = (v, none)
  | .nil, _ => ⟨.null, rfl, rfl⟩
  | .bool b, _ => ⟨.bool b, rfl, rfl⟩
  | .float64 x, h =>
    ⟨json.marshalFloat x, rfl, decode_marshalFloat x (by simpa [GoVal.isJSONValue] using h)⟩
  | .string s, h =>
    ⟨.str s.toText, rfl, by
      simp [json.decodeInterface, ofText_toText s (by simpa [GoVal.isJSONValue] using h)]⟩
  | .slice xs, h => by
    obtain ⟨js, h1, h2⟩ := decode_marshalElems xs (by simpa [GoVal.isJSONValue] using h)
    exact ⟨.arr js, by simp [json.marshalVal, h1], by simp [json.decodeInterface, h2]⟩
  | .map m, h => by
    have h' : keysIncreasing m = true ∧ GoVal.allJSONEntries m = true := by
      simpa [GoVal.isJSONValue] using h
    obtain ⟨kvs, h1, h2⟩ := decode_marshalEntries m h'.2
    exact ⟨.obj kvs, by simp [json.marshalVal, h1],
      by simp [json.decodeInterface, h2, buildMap_increasing m h'.1]⟩
  | .int _, h => by simp [GoVal.isJSONValue] at h
  | .unsupported, h => by simp [GoVal.isJSONValue] at h
theorem decode_marshalElems : ∀ xs : List GoVal, GoVal.allJSONValues xs = true →
    ∃ js, json.marshalElems xs = .ok js ∧ json.decodeElems js = (xs, none)
  | [], _ => ⟨[], rfl, rfl⟩
  | x :: xs, h => by
    have h' : x.isJSONValue = true ∧ GoVal.allJSONValues xs = true := by
      simpa [GoVal.allJSONValues] using h
    obtain ⟨j, h1, h2⟩ := decode_marshalVal x h'.1
    obtain ⟨js, h3, h4⟩ := decode_marshalElems xs h'.2
    exact ⟨j :: js, by simp [json.marshalElems, h1, h3],
      by simp [json.decodeElems, h2, h4, json.saveError]⟩
theorem decode_marshalEntries : ∀ m : List (GoString × GoVal),
    GoVal.allJSONEntries m = true →
    ∃ kvs, json.marshalEntries m = .ok kvs ∧ json.decodeMembers kvs = (m, none)
  | [], _ => ⟨[], rfl, rfl⟩
  | (k, v) :: rest, h => by
    have h' : (k.isText = true ∧ v.isJSONValue = true) ∧ GoVal.allJSONEntries rest = true := by
      simpa [GoVal.allJSONEntries] using h
    obtain ⟨j, h1, h2⟩ := decode_marshalVal v h'.1.2
    obtain ⟨kvs, h3, h4⟩ := decode_marshalEntries rest h'.2
    exact ⟨(k.toText, j) :: kvs, by simp [json.marshalEntries, h1, h3],
      by simp [json.decodeMembers, h2, h4, json.saveError, ofText_toText k h'.1.1]⟩
end

/-! ## The envelope on the wire -/

theorem unmarshal_envelope (version method : String) (id : JSON) (params : List JSON) :
    json.UnmarshalRawCmd
      (.text (.obj [("jsonrpc", .str version), ("id", id), ("method", .str method),
        ("params", .arr params)])) btcjson.RawCmd.zero
      = ({ Jsonrpc := GoString.ofText version, Id := (json.decodeInterface id).1,
           Method := GoString.ofText method, Params := params.map Bytes.text },
         (json.decodeInterface id).2) := by
  have e : json.UnmarshalRawCmd
      (.text (.obj [("jsonrpc", .str version), ("id", id), ("method", .str method),
        ("params", .arr params)])) btcjson.RawCmd.zero
      = ({ Jsonrpc := GoString.ofText version, Id := (json.decodeInterface id).1,
           Method := GoString.ofText method, Params := params.map Bytes.text },
         json.saveError (json.saveError (json.decodeInterface id).2 none) none) := rfl
  rw [e]
  cases (json.decodeInterface id).2 <;> rfl

/-! ## name_show -/

/-- C1, as the code has it: for every id that is a JSON value and every name that is
valid UTF-8, `NewNameShowCmd` gives a command holding them, `MarshalJSON` succeeds on it,
and `UnmarshalJSON` of the bytes into any receiver succeeds and leaves the receiver equal
to that command. -/
theorem nameShow_roundtrip (id : GoVal) (name : GoString) (hid : id.isJSONValue = true)
    (hname : name.isText = true) :
    ∃ cmd b, NewNameShowCmd id name = .ok cmd ∧ cmd.id = id ∧ cmd.Name = name ∧
      cmd.MarshalJSON = .ok b ∧
      ∀ c : NameShowCmd, c.UnmarshalJSON b = (cmd, none) := by
  obtain ⟨j, hj, hdec⟩ := decode_marshalVal id hid
  refine ⟨{ id := id, Name := name },
    .text (.obj [("jsonrpc", .str "1.0"), ("id", j), ("method", .str "name_show"),
      ("params", .arr [.str name.toText])]), rfl, rfl, rfl, ?_, ?_⟩
  · simp [NameShowCmd.MarshalJSON, NameShowCmd.Method, btcjson.NewRawCmd,
      btcjson.NewRawCmd.loop, json.Marshal, json.marshalVal, json.MarshalRawCmd, hj,
      json.marshalRawMessages, json.marshalRawMessage, toText_ofText]
  · intro c
    simp [NameShowCmd.UnmarshalJSON, unmarshal_envelope, json.UnmarshalString,
      json.decodeString, NewNameShowCmd, hdec, ofText_toText name hname]

/-- An instance of C1 as the code has it: the id is a JSON object with one member, an
array. -/
theorem nameShow_roundtrip_witness :
    ((GoVal.map [(GoString.ofText "k", .slice [.nil, .float64 1, .string (GoString.ofText "x")])]).isJSONValue
        = true ∧
      (GoString.ofText "d/example").isText = true) ∧
    ∃ cmd b,
      NewNameShowCmd
          (.map [(GoString.ofText "k", .slice [.nil, .float64 1, .string (GoString.ofText "x")])])
          (GoString.ofText "d/example") = .ok cmd ∧
      cmd.id = .map [(GoString.ofText "k", .slice [.nil, .float64 1, .string (GoString.ofText "x")])] ∧
      cmd.Name = GoString.ofText "d/example" ∧ cmd.MarshalJSON = .ok b ∧
      ∀ c : NameShowCmd, c.UnmarshalJSON b = (cmd, none) :=
  ⟨⟨by decide, by decide⟩,
    nameShow_roundtrip _ (GoString.ofText "d/example") (by decide) (by decide)⟩

/-- C1 as stated fails at a name that is not valid UTF-8, the one byte 0xFF: `MarshalJSON`
writes U+FFFD in its place, so `UnmarshalJSON` of the bytes leaves a receiver whose Name
is the character U+FFFD, not the original name. -/
theorem nameShow_roundtrip_invalid_utf8 :
    NameShowCmd.MarshalJSON { id := .nil, Name := [.byte 0xFF] }
      = .ok (.text (.obj [("jsonrpc", .str "1.0"), ("id", .null),
          ("method", .str "name_show"),
          ("params", .arr [.str (String.mk [Char.ofNat 0xFFFD])])])) ∧
    NameShowCmd.UnmarshalJSON { id := .nil, Name := [] }
        (.text (.obj [("jsonrpc", .str "1.0"), ("id", .null), ("method", .str "name_show"),
          ("params", .arr [.str (String.mk [Char.ofNat 0xFFFD])])]))
      = ({ id := .nil, Name := [.char (Char.ofNat 0xFFFD)] }, none) ∧
    ([.char (Char.ofNat 0xFFFD)] : GoString) ≠ [.byte 0xFF] :=
  ⟨rfl, rfl, by decide⟩

/-- C2: for every id and name, `NameShowCmd.MarshalJSON` builds the envelope with the id
unchanged, the method name_show and the one parameter name, a JSON string, and writes it
out with the id as `json.Marshal` writes it (failing only when the id cannot be
written). The JSON string written for a name is the name itself when the name is valid
UTF-8. -/
theorem nameShow_marshal (id : GoVal) (name : GoString) :
    btcjson.NewRawCmd id (NameShowCmd.Method { id := id, Name := name }) [.string name]
      = .ok { Jsonrpc := GoString.ofText "1.0", Id := id,
              Method := GoString.ofText "name_show",
              Params := [.text (.str name.toText)] } ∧
    NameShowCmd.MarshalJSON { id := id, Name := name }
      = (match json.marshalVal id with
         | .ok j => .ok (.text (.obj [("jsonrpc", .str "1.0"), ("id", j),
             ("method", .str "name_show"), ("params", .arr [.str name.toText])]))
         | .error err => .error err) ∧
    (∀ s : String, (GoString.ofText s).toText = s) := by
  refine ⟨rfl, ?_, toText_ofText⟩
  simp only [NameShowCmd.MarshalJSON, NameShowCmd.Method, btcjson.NewRawCmd,
    btcjson.NewRawCmd.loop, json.Marshal, json.marshalVal, json.MarshalRawCmd,
    List.nil_append, json.marshalRawMessages, json.marshalRawMessage, toText_ofText]
  cases json.marshalVal id <;> rfl

/-! ## name_filter, name_sync, name_scan requests -/

/-- C3: for every id, regexp, maxage, from and count, `NameFilterCmd.MarshalJSON` builds
the envelope with the method name_filter and the four parameters regexp, maxage, from,
count in this order, and writes it out. -/
theorem nameFilter_marshal (id : GoVal) (regexp : GoString) (maxage start count : Int) :
    btcjson.NewRawCmd id
        (NameFilterCmd.Method
          { id := id, Regexp := regexp, MaxAge := maxage, From := start, Count := count })
        [.string regexp, .int maxage, .int start, .int count]
      = .ok { Jsonrpc := GoString.ofText "1.0", Id := id,
              Method := GoString.ofText "name_filter",
              Params := [.text (.str regexp.toText), .text (.int maxage), .text (.int start),
                .text (.int count)] } ∧
    NameFilterCmd.MarshalJSON
        { id := id, Regexp := regexp, MaxAge := maxage, From := start, Count := count }
      = (match json.marshalVal id with
         | .ok j => .ok (.text (.obj [("jsonrpc", .str "1.0"), ("id", j),
             ("method", .str "name_filter"),
             ("params", .arr [.str regexp.toText, .int maxage, .int start, .int count])]))
         | .error err => .error err) := by
  constructor
  · rfl
  · simp only [NameFilterCmd.MarshalJSON, NameFilterCmd.Method, btcjson.NewRawCmd,
      btcjson.NewRawCmd.loop, json.Marshal, json.marshalVal, json.MarshalRawCmd,
      List.nil_append, List.cons_append, json.marshalRawMessages, json.marshalRawMessage,
      toText_ofText]
    cases json.marshalVal id <;> rfl

/-- C4: for every id, block hash, count and wait, `NameSyncCmd.MarshalJSON` builds the
envelope with the method name_sync and the three parameters block hash (a string), count
(an integer), wait (a boolean) in this order, and writes it out. -/
theorem nameSync_marshal (id : GoVal) (blockHash : GoString) (count : Int) (wait : Bool) :
    btcjson.NewRawCmd id
        (NameSyncCmd.Method { id := id, BlockHash := blockHash, Count := count, Wait := wait })
        [.string blockHash, .int count, .bool wait]
      = .ok { Jsonrpc := GoString.ofText "1.0", Id := id,
              Method := GoString.ofText "name_sync",
              Params := [.text (.str blockHash.toText), .text (.int count),
                .text (.bool wait)] } ∧
    NameSyncCmd.MarshalJSON { id := id, BlockHash := blockHash, Count := count, Wait := wait }
      = (match json.marshalVal id with
         | .ok j => .ok (.text (.obj [("jsonrpc", .str "1.0"), ("id", j),
             ("method", .str "name_sync"),
             ("params", .arr [.str blockHash.toText, .int count, .bool wait])]))
         | .error err => .error err) := by
  constructor
  · rfl
  · simp only [NameSyncCmd.MarshalJSON, NameSyncCmd.Method, btcjson.NewRawCmd,
      btcjson.NewRawCmd.loop, json.Marshal, json.marshalVal, json.MarshalRawCmd,
      List.nil_append, List.cons_append, json.marshalRawMessages, json.marshalRawMessage,
      toText_ofText]
    cases json.marshalVal id <;> rfl

/-- C5: for every id, from and count, `NameScanCmd.MarshalJSON` builds the envelope with
the method name_scan and the two parameters from (a string), count (an integer) in this
order, and writes it out. -/
theorem nameScan_marshal (id : GoVal) (start : GoString) (count : Int) :
    btcjson.NewRawCmd id (NameScanCmd.Method { id := id, From := start, Count := count })
        [.string start, .int count]
      = .ok { Jsonrpc := GoString.ofText "1.0", Id := id,
              Method := GoString.ofText "name_scan",
              Params := [.text (.str start.toText), .text (.int count)] } ∧
    NameScanCmd.MarshalJSON { id := id, From := start, Count := count }
      = (match json.marshalVal id with
         | .ok j => .ok (.text (.obj [("jsonrpc", .str "1.0"), ("id", j),
             ("method", .str "name_scan"),
             ("params", .arr [.str start.toText, .int count])]))
         | .error err => .error err) := by
  constructor
  · rfl
  · simp only [NameScanCmd.MarshalJSON, NameScanCmd.Method, btcjson.NewRawCmd,
      btcjson.NewRawCmd.loop, json.Marshal, json.marshalVal, json.MarshalRawCmd,
      List.nil_append, List.cons_append, json.marshalRawMessages, json.marshalRawMessage,
      toText_ofText]
    cases json.marshalVal id <;> rfl

/-! ## Decoding a name_show request -/

theorem name_error_prefix (err : Error) :
    "first argument 'name' must be a string".toList <+:
      ("first argument 'name' must be a string: " ++ err.message).toList := by
  have e : "first argument 'name' must be a string: "
      = "first argument 'name' must be a string" ++ ": " := by decide
  rw [e, String.append_assoc]
  show _ <+: ("first argument 'name' must be a string" ++ (": " ++ err.message)).data
  rw [String.data_append]
  exact List.prefix_append _ _

theorem unmarshalString_cases (p : Bytes) :
    (∃ s, p = .text (.str s) ∧
      json.UnmarshalString p (GoString.ofText "") = (GoString.ofText s, none)) ∨
    (p = .text .null ∧
      json.UnmarshalString p (GoString.ofText "") = (GoString.ofText "", none)) ∨
    ((∀ s, p ≠ .text (.str s)) ∧ p ≠ .text .null ∧
      ∃ err, json.UnmarshalString p (GoString.ofText "") = (GoString.ofText "", some err)) := by
  cases p with
  | invalid msg => exact Or.inr (Or.inr ⟨by simp, by simp, .syntaxError msg, rfl⟩)
  | text j =>
    cases j with
    | str s => exact Or.inl ⟨s, rfl, rfl⟩
    | null => exact Or.inr (Or.inl ⟨rfl, rfl⟩)
    | bool b => exact Or.inr (Or.inr ⟨by simp, by simp, _, rfl⟩)
    | int n => exact Or.inr (Or.inr ⟨by simp, by simp, _, rfl⟩)
    | real x => exact Or.inr (Or.inr ⟨by simp, by simp, _, rfl⟩)
    | arr xs => exact Or.inr (Or.inr ⟨by simp, by simp, _, rfl⟩)
    | obj kvs => exact Or.inr (Or.inr ⟨by simp, by simp, _, rfl⟩)

/-- C6, as the code has it: on a request with exactly one parameter, `UnmarshalJSON` and
`showCmdParser` succeed with that name when the parameter is a JSON string, succeed with
the empty name when it is null, and fail with an error whose message starts with
"first argument 'name' must be a string" when it is anything else. -/
theorem nameShow_decode_name_kind (c : NameShowCmd) (b : Bytes) (r rc : btcjson.RawCmd)
    (p : Bytes) (hb : json.UnmarshalRawCmd b btcjson.RawCmd.zero = (r, none))
    (hr : r.Params = [p]) (hrc : rc.Params = [p]) :
    (∀ s, p = .text (.str s) →
      c.UnmarshalJSON b = ({ id := r.Id, Name := GoString.ofText s }, none) ∧
      showCmdParser rc = .ok { id := rc.Id, Name := GoString.ofText s }) ∧
    (p = .text .null →
      c.UnmarshalJSON b = ({ id := r.Id, Name := GoString.ofText "" }, none) ∧
      showCmdParser rc = .ok { id := rc.Id, Name := GoString.ofText "" }) ∧
    ((∀ s, p ≠ .text (.str s)) → p ≠ .text .null →
      ∃ msg, "first argument 'name' must be a string".toList <+: msg.toList ∧
        c.UnmarshalJSON b = (c, some (.errorf msg)) ∧
        showCmdParser rc = .error (.errorf msg)) := by
  have hU : ∀ res, json.UnmarshalString p (GoString.ofText "") = res →
      c.UnmarshalJSON b =
        (match res with
         | (_, some err) =>
           (c, some (.errorf ("first argument 'name' must be a string: " ++ err.message)))
         | (name, none) => ({ id := r.Id, Name := name }, none)) ∧
      showCmdParser rc =
        (match res with
         | (_, some err) =>
           .error (.errorf ("first argument 'name' must be a string: " ++ err.message))
         | (name, none) => .ok { id := rc.Id, Name := name }) := by
    intro res hres
    subst hres
    constructor
    · simp only [NameShowCmd.UnmarshalJSON, hb, hr, List.length_singleton, ne_eq,
        not_true_eq_false, if_false, List.getD_cons_zero, NewNameShowCmd]
    · simp only [showCmdParser, hrc, List.length_singleton, Nat.lt_irrefl, if_false,
        List.getD_cons_zero, NewNameShowCmd]
  refine ⟨?_, ?_, ?_⟩
  · intro s hs
    subst hs
    exact hU _ rfl
  · intro hn
    subst hn
    exact hU _ rfl
  · intro h1 h2
    rcases unmarshalString_cases p with ⟨s, hs, _⟩ | ⟨hn, _⟩ | ⟨_, _, err, herr⟩
    · exact absurd hs (h1 s)
    · exact absurd hn h2
    · exact ⟨_, name_error_prefix err, hU _ herr⟩

/-- An instance of C6 as the code has it: the request with the parameters `[42]`. -/
theorem nameShow_decode_name_kind_witness :
    json.UnmarshalRawCmd
        (.text (.obj [("jsonrpc", .str "1.0"), ("id", .str "q"), ("method", .str "name_show"),
          ("params", .arr [.int 42])])) btcjson.RawCmd.zero
      = ({ Jsonrpc := GoString.ofText "1.0", Id := .string (GoString.ofText "q"),
           Method := GoString.ofText "name_show", Params := [.text (.int 42)] }, none) ∧
    ∃ msg, "first argument 'name' must be a string".toList <+: msg.toList ∧
      NameShowCmd.UnmarshalJSON { id := .nil, Name := GoString.ofText "old" }
          (.text (.obj [("jsonrpc", .str "1.0"), ("id", .str "q"),
            ("method", .str "name_show"), ("params", .arr [.int 42])]))
        = ({ id := .nil, Name := GoString.ofText "old" }, some (.errorf msg)) ∧
      showCmdParser
          { Jsonrpc := GoString.ofText "1.0", Id := .string (GoString.ofText "q"),
            Method := GoString.ofText "name_show", Params := [.text (.int 42)] }
        = .error (.errorf msg) :=
  ⟨rfl, (nameShow_decode_name_kind { id := .nil, Name := GoString.ofText "old" } _ _
    { Jsonrpc := GoString.ofText "1.0", Id := .string (GoString.ofText "q"),
      Method := GoString.ofText "name_show", Params := [.text (.int 42)] }
    (.text (.int 42)) rfl rfl rfl).2.2
    (by simp) (by simp)⟩

/-- C6 as stated fails at null: a request whose one parameter is null is not rejected,
both decoders succeed and give a command with the empty name. -/
theorem nameShow_decode_null_accepted :
    NameShowCmd.UnmarshalJSON { id := .nil, Name := GoString.ofText "old" }
        (.text (.obj [("jsonrpc", .str "1.0"), ("id", .str "q"), ("method", .str "name_show"),
          ("params", .arr [.null])]))
      = ({ id := .string (GoString.ofText "q"), Name := GoString.ofText "" }, none) ∧
    showCmdParser
        { Jsonrpc := GoString.ofText "1.0", Id := .string (GoString.ofText "q"),
          Method := GoString.ofText "name_show", Params := [.text .null] }
      = .ok { id := .string (GoString.ofText "q"), Name := GoString.ofText "" } :=
  ⟨rfl, rfl⟩

/-- C7: when the request decodes to an envelope whose parameter list has a length other
than one, `NameShowCmd.UnmarshalJSON` fails with `btcjson.ErrWrongNumberOfParams` and
leaves the receiver alone, whatever the parameters are. -/
theorem nameShow_unmarshal_arity (c : NameShowCmd) (b : Bytes) (r : btcjson.RawCmd)
    (hb : json.UnmarshalRawCmd b btcjson.RawCmd.zero = (r, none))
    (hlen : r.Params.length ≠ 1) :
    c.UnmarshalJSON b = (c, some .ErrWrongNumberOfParams) := by
  simp only [NameShowCmd.UnmarshalJSON, hb, hlen, ne_eq, not_false_eq_true, if_true]

/-- An instance of C7: the request with the two parameters `["a", 7]`. -/
theorem nameShow_unmarshal_arity_witness :
    json.UnmarshalRawCmd
        (.text (.obj [("jsonrpc", .str "1.0"), ("id", .str "q"), ("method", .str "name_show"),
          ("params", .arr [.str "a", .int 7])])) btcjson.RawCmd.zero
      = ({ Jsonrpc := GoString.ofText "1.0", Id := .string (GoString.ofText "q"),
           Method := GoString.ofText "name_show",
           Params := [.text (.str "a"), .text (.int 7)] }, none) ∧
    NameShowCmd.UnmarshalJSON { id := .nil, Name := GoString.ofText "old" }
        (.text (.obj [("jsonrpc", .str "1.0"), ("id", .str "q"), ("method", .str "name_show"),
          ("params", .arr [.str "a", .int 7])]))
      = ({ id := .nil, Name := GoString.ofText "old" }, some .ErrWrongNumberOfParams) :=
  ⟨rfl, nameShow_unmarshal_arity { id := .nil, Name := GoString.ofText "old" } _
    { Jsonrpc := GoString.ofText "1.0", Id := .string (GoString.ofText "q"),
      Method := GoString.ofText "name_show",
      Params := [.text (.str "a"), .text (.int 7)] } rfl (by decide)⟩

/-- C8, the code at a raw command with two parameters: `showCmdParser` does not fail, it
returns the command named by the first parameter, while `NameShowCmd.UnmarshalJSON`
rejects the same request with `btcjson.ErrWrongNumberOfParams`. -/
theorem showCmdParser_two_params :
    showCmdParser
        { Jsonrpc := GoString.ofText "1.0", Id := .string (GoString.ofText "q"),
          Method := GoString.ofText "name_show",
          Params := [.text (.str "a"), .text (.str "b")] }
      = .ok { id := .string (GoString.ofText "q"), Name := GoString.ofText "a" } ∧
    NameShowCmd.UnmarshalJSON { id := .nil, Name := GoString.ofText "old" }
        (.text (.obj [("jsonrpc", .str "1.0"), ("id", .str "q"), ("method", .str "name_show"),
          ("params", .arr [.str "a", .str "b"])]))
      = ({ id := .nil, Name := GoString.ofText "old" }, some .ErrWrongNumberOfParams) :=
  ⟨rfl, rfl⟩

/-! ## Number literals within and outside the range of float64 -/

theorem saveError_none (err : Option Error) : json.saveError none err = err := rfl

theorem saveError_some (e : Error) (err : Option Error) :
    json.saveError (some e) err = some e := rfl

theorem decodeNumber_of_isSome (x : ℚ) (h : (strconv.roundFloat64 x).isSome = true) :
    json.decodeNumber x = (.float64 ((strconv.roundFloat64 x).getD 0), none) := by
  unfold json.decodeNumber
  cases hr : strconv.roundFloat64 x with
  | none => simp [hr] at h
  | some f => simp

theorem decodeNumber_of_isNone (x : ℚ) (h : (strconv.roundFloat64 x).isSome = false) :
    json.decodeNumber x = (.nil, some (.unmarshalType "number" "float64")) := by
  unfold json.decodeNumber
  cases hr : strconv.roundFloat64 x with
  | none => rfl
  | some f => simp [hr] at h

mutual
theorem decodeInterface_fit : ∀ j : JSON, json.numbersFit j = true →
    (json.decodeInterface j).2 = none
  | .null, _ => rfl
  | .bool _, _ => rfl
  | .int n, h => by
    simp only [json.decodeInterface, decodeNumber_of_isSome _ (by simpa [json.numbersFit] using h)]
  | .real x, h => by
    simp only [json.decodeInterface, decodeNumber_of_isSome _ (by simpa [json.numbersFit] using h)]
  | .str _, _ => rfl
  | .arr xs, h => by
    simpa [json.decodeInterface] using decodeElems_fit xs (by simpa [json.numbersFit] using h)
  | .obj kvs, h => by
    simpa [json.decodeInterface] using
      decodeMembers_fit kvs (by simpa [json.numbersFit] using h)
theorem decodeElems_fit : ∀ xs : List JSON, json.allFit xs = true →
    (json.decodeElems xs).2 = none
  | [], _ => rfl
  | x :: xs, h => by
    have h' : json.numbersFit x = true ∧ json.allFit xs = true := by
      simpa [json.allFit] using h
    simp [json.decodeElems, decodeInterface_fit x h'.1, decodeElems_fit xs h'.2,
      saveError_none]
theorem decodeMembers_fit : ∀ kvs : List (String × JSON), json.membersFit kvs = true →
    (json.decodeMembers kvs).2 = none
  | [], _ => rfl
  | (k, v) :: rest, h => by
    have h' : json.numbersFit v = true ∧ json.membersFit rest = true := by
      simpa [json.membersFit] using h
    simp [json.decodeMembers, decodeInterface_fit v h'.1, decodeMembers_fit rest h'.2,
      saveError_none]
end

mutual
theorem decodeInterface_unfit : ∀ j : JSON, json.numbersFit j = false →
    (json.decodeInterface j).2 = some (.unmarshalType "number" "float64")
  | .null, h => by simp [json.numbersFit] at h
  | .bool _, h => by simp [json.numbersFit] at h
  | .int n, h => by
    simp only [json.decodeInterface, decodeNumber_of_isNone _ (by simpa [json.numbersFit] using h)]
  | .real x, h => by
    simp only [json.decodeInterface, decodeNumber_of_isNone _ (by simpa [json.numbersFit] using h)]
  | .str _, h => by simp [json.numbersFit] at h
  | .arr xs, h => by
    simpa [json.decodeInterface] using
      decodeElems_unfit xs (by simpa [json.numbersFit] using h)
  | .obj kvs, h => by
    simpa [json.decodeInterface] using
      decodeMembers_unfit kvs (by simpa [json.numbersFit] using h)
theorem decodeElems_unfit : ∀ xs : List JSON, json.allFit xs = false →
    (json.decodeElems xs).2 = some (.unmarshalType "number" "float64")
  | [], h => by simp [json.allFit] at h
  | x :: xs, h => by
    cases hx : json.numbersFit x with
    | false =>
      simp [json.decodeElems, decodeInterface_unfit x hx, saveError_some]
    | true =>
      have hxs : json.allFit xs = false := by simpa [json.allFit, hx] using h
      simp [json.decodeElems, decodeInterface_fit x hx, decodeElems_unfit xs hxs,
        saveError_none]
theorem decodeMembers_unfit : ∀ kvs : List (String × JSON), json.membersFit kvs = false →
    (json.decodeMembers kvs).2 = some (.unmarshalType "number" "float64")
  | [], h => by simp [json.membersFit] at h
  | (k, v) :: rest, h => by
    cases hv : json.numbersFit v with
    | false =>
      simp [json.decodeMembers, decodeInterface_unfit v hv, saveError_some]
    | true =>
      have hr : json.membersFit rest = false := by simpa [json.membersFit, hv] using h
      simp [json.decodeMembers, decodeInterface_fit v hv, decodeMembers_unfit rest hr,
        saveError_none]
end

theorem decodeElems_fit_eq (xs : List JSON) (h : json.allFit xs = true) :
    ∃ a, json.decodeElems xs = (a, none) :=
  ⟨(json.decodeElems xs).1, Prod.ext rfl (decodeElems_fit xs h)⟩

/-! ## The event decoder, case by case -/

theorem unmarshalEvent_unfit (e : NameSyncEvent) (xs : List JSON)
    (h : json.allFit xs = false) :
    e.UnmarshalJSON (.text (.arr xs)) = (e, some (.unmarshalType "number" "float64")) := by
  have h2 := decodeElems_unfit xs h
  simp only [NameSyncEvent.UnmarshalJSON, json.UnmarshalSlice, json.decodeSlice]
  rcases hd : json.decodeElems xs with ⟨a, _ | err⟩
  · rw [hd] at h2
    simp at h2
  · rw [hd] at h2
    simp only [Option.some.injEq] at h2
    simp [h2]

theorem decodeElems_cons (x : JSON) (xs : List JSON) (a : List GoVal)
    (hx : json.numbersFit x = true) (h : json.decodeElems xs = (a, none)) :
    json.decodeElems (x :: xs) = ((json.decodeInterface x).1 :: a, none) := by
  simp [json.decodeElems, h, decodeInterface_fit x hx, saveError_none]

theorem decodeInterface_null : (json.decodeInterface .null).1 = .nil := rfl

theorem decodeInterface_bool (b : Bool) : (json.decodeInterface (.bool b)).1 = .bool b := rfl

theorem decodeInterface_str (s : String) :
    (json.decodeInterface (.str s)).1 = .string (GoString.ofText s) := rfl

theorem decodeInterface_arr (xs : List JSON) :
    (json.decodeInterface (.arr xs)).1 = .slice (json.decodeElems xs).1 := by
  simp [json.decodeInterface]

theorem decodeInterface_obj (kvs : List (String × JSON)) :
    (json.decodeInterface (.obj kvs)).1 = .map (json.buildMap (json.decodeMembers kvs).1) := by
  simp [json.decodeInterface]

theorem decodeInterface_int (n : Int) (h : json.numbersFit (.int n) = true) :
    (json.decodeInterface (.int n)).1
      = .float64 ((strconv.roundFloat64 (n : ℚ)).getD 0) := by
  simp only [json.decodeInterface,
    decodeNumber_of_isSome _ (by simpa [json.numbersFit] using h)]

theorem decodeInterface_real (x : ℚ) (h : json.numbersFit (.real x) = true) :
    (json.decodeInterface (.real x)).1 = .float64 ((strconv.roundFloat64 x).getD 0) := by
  simp only [json.decodeInterface,
    decodeNumber_of_isSome _ (by simpa [json.numbersFit] using h)]

theorem unmarshalEvent_error (e : NameSyncEvent) (xs : List JSON)
    (hfit : json.allFit xs = true) :
    (e.UnmarshalJSON (.text (.arr xs))).2
      = if NameSyncEvent.accepts xs = true then none else some errMalformed := by
  have hl : ∀ n : Nat, ¬ (n + 1 + 1 + 1 < 3) := fun n => by omega
  rcases xs with _ | ⟨x, _ | ⟨y, _ | ⟨z, rest⟩⟩⟩
  · simp [NameSyncEvent.UnmarshalJSON, json.UnmarshalSlice, json.decodeSlice,
      json.decodeElems, NameSyncEvent.accepts]
  · have hx : json.numbersFit x = true := by simpa [json.allFit] using hfit
    have hd := decodeElems_cons x [] [] hx rfl
    simp only [NameSyncEvent.UnmarshalJSON, json.UnmarshalSlice, json.decodeSlice, hd,
      List.length_cons, List.getD_cons_zero]
    cases x with
    | str tag =>
      by_cases h1 : tag = "firstupdate" ∨ tag = "update"
      · simp [decodeInterface_str, NameSyncEvent.accepts, ofText_inj, h1]
      · by_cases h2 : tag = "atblock"
        · simp [decodeInterface_str, NameSyncEvent.accepts, ofText_inj, h2]
        · simp [decodeInterface_str, NameSyncEvent.accepts, ofText_inj, h1, h2]
    | null => simp [decodeInterface_null, NameSyncEvent.accepts]
    | bool b => simp [decodeInterface_bool, NameSyncEvent.accepts]
    | int n => simp [decodeInterface_int n hx, NameSyncEvent.accepts]
    | real q => simp [decodeInterface_real q hx, NameSyncEvent.accepts]
    | arr ys => simp [decodeInterface_arr, NameSyncEvent.accepts]
    | obj kvs => simp [decodeInterface_obj, NameSyncEvent.accepts]
  · have hf : json.numbersFit x = true ∧ json.numbersFit y = true := by
      simpa [json.allFit] using hfit
    obtain ⟨hx, hy⟩ := hf
    have hd := decodeElems_cons x [y] _ hx (decodeElems_cons y [] [] hy rfl)
    simp only [NameSyncEvent.UnmarshalJSON, json.UnmarshalSlice, json.decodeSlice, hd,
      List.length_cons, List.getD_cons_zero]
    cases x with
    | str tag =>
      by_cases h1 : tag = "firstupdate" ∨ tag = "update"
      · cases y <;> simp [decodeInterface_str, NameSyncEvent.accepts, ofText_inj, h1]
      · by_cases h2 : tag = "atblock"
        · cases y <;> simp [decodeInterface_str, NameSyncEvent.accepts, ofText_inj, h2]
        · simp [decodeInterface_str, NameSyncEvent.accepts, ofText_inj, h1, h2]
    | null => simp [decodeInterface_null, NameSyncEvent.accepts]
    | bool b => simp [decodeInterface_bool, NameSyncEvent.accepts]
    | int n => simp [decodeInterface_int n hx, NameSyncEvent.accepts]
    | real q => simp [decodeInterface_real q hx, NameSyncEvent.accepts]
    | arr ys => simp [decodeInterface_arr, NameSyncEvent.accepts]
    | obj kvs => simp [decodeInterface_obj, NameSyncEvent.accepts]
  · have hf : json.numbersFit x = true ∧ json.numbersFit y = true ∧
        json.numbersFit z = true ∧ json.allFit rest = true := by
      simpa [json.allFit] using hfit
    obtain ⟨hx, hy, hz, hrest⟩ := hf
    obtain ⟨ar, har⟩ := decodeElems_fit_eq rest hrest
    have hd := decodeElems_cons x _ _ hx (decodeElems_cons y _ _ hy
      (decodeElems_cons z rest ar hz har))
    simp only [NameSyncEvent.UnmarshalJSON, json.UnmarshalSlice, json.decodeSlice, hd,
      List.length_cons, List.getD_cons_zero, List.getD_cons_succ]
    cases x with
    | str tag =>
      by_cases h1 : tag = "firstupdate" ∨ tag = "update"
      · cases y <;> cases z <;>
          simp [hl, decodeInterface_null, decodeInterface_bool, decodeInterface_str,
            decodeInterface_arr, decodeInterface_obj, decodeInterface_int,
            decodeInterface_real, hy, hz, NameSyncEvent.accepts, ofText_inj, h1]
      · by_cases h2 : tag = "atblock"
        · cases y <;> cases z <;>
            simp [hl, decodeInterface_null, decodeInterface_bool, decodeInterface_str,
              decodeInterface_arr, decodeInterface_obj, decodeInterface_int,
              decodeInterface_real, hy, hz, NameSyncEvent.accepts, ofText_inj, h2]
        · simp [decodeInterface_str, NameSyncEvent.accepts, ofText_inj, h1, h2]
    | null => simp [decodeInterface_null, NameSyncEvent.accepts]
    | bool b => simp [decodeInterface_bool, NameSyncEvent.accepts]
    | int n => simp [decodeInterface_int n hx, NameSyncEvent.accepts]
    | real q => simp [decodeInterface_real q hx, NameSyncEvent.accepts]
    | arr ys => simp [decodeInterface_arr, NameSyncEvent.accepts]
    | obj kvs => simp [decodeInterface_obj, NameSyncEvent.accepts]

theorem unmarshalEvent_notAnArray (e : NameSyncEvent) (x : JSON) (hx : notAnArray x = true) :
    e.UnmarshalJSON (.text x) = (e, some (.unmarshalType x.kind "[]interface {}")) := by
  cases x <;> first | rfl | simp [notAnArray] at hx

theorem unmarshalEvent_array_or_null (e : NameSyncEvent) (x : JSON)
    (hx : notAnArray x = false) (hfit : json.numbersFit x = true) :
    (e.UnmarshalJSON (.text x)).2 = none ∨ (e.UnmarshalJSON (.text x)).2 = some errMalformed := by
  cases x with
  | arr xs =>
    rw [unmarshalEvent_error e xs (by simpa [json.numbersFit] using hfit)]
    by_cases h : NameSyncEvent.accepts xs = true
    · exact Or.inl (by simp [h])
    · exact Or.inr (by simp [h])
  | null => exact Or.inr rfl
  | bool b => simp [notAnArray] at hx
  | int n => simp [notAnArray] at hx
  | real x => simp [notAnArray] at hx
  | str s => simp [notAnArray] at hx
  | obj kvs => simp [notAnArray] at hx

/-! ## Decoding a name_sync event -/

/-- C9, as the code has it: an array that starts with the tag firstupdate or update,
followed by two strings n and v and by elements in which every number literal is within
the range of float64, decodes into a zero event as the event with that tag, Name n,
Value v, and BlockHash and BlockHeight still zero. -/
theorem nameSyncEvent_update (tag n v : String) (rest : List JSON)
    (htag : tag = "firstupdate" ∨ tag = "update") (hfit : json.allFit rest = true) :
    NameSyncEvent.zero.UnmarshalJSON (.text (.arr (.str tag :: .str n :: .str v :: rest)))
      = ({ Type_ := GoString.ofText tag, Name := GoString.ofText n,
           Value := GoString.ofText v, BlockHash := GoString.ofText "",
           BlockHeight := 0 }, none) := by
  have hl : ∀ k : Nat, ¬ (k + 1 + 1 + 1 < 3) := fun k => by omega
  obtain ⟨ar, har⟩ := decodeElems_fit_eq rest hfit
  have hd := decodeElems_cons (.str tag) _ _ rfl (decodeElems_cons (.str n) _ _ rfl
    (decodeElems_cons (.str v) rest ar rfl har))
  simp [hl, NameSyncEvent.UnmarshalJSON, json.UnmarshalSlice, json.decodeSlice, hd,
    decodeInterface_str, ofText_inj, htag, NameSyncEvent.zero]

/-- An instance of C9 as the code has it: the event `["update","d/example","newvalue"]`. -/
theorem nameSyncEvent_update_witness :
    (("update" = "firstupdate" ∨ "update" = "update") ∧ json.allFit [] = true) ∧
    NameSyncEvent.zero.UnmarshalJSON
        (.text (.arr [.str "update", .str "d/example", .str "newvalue"]))
      = ({ Type_ := GoString.ofText "update", Name := GoString.ofText "d/example",
           Value := GoString.ofText "newvalue", BlockHash := GoString.ofText "",
           BlockHeight := 0 }, none) :=
  ⟨⟨by decide, rfl⟩,
    nameSyncEvent_update "update" "d/example" "newvalue" [] (by decide) rfl⟩

/-- C9 as stated fails at the array `["update","n","v",1e400]`: the fourth element is a
number literal outside the range of float64, `json.Unmarshal` reports a type error, and
the decoder returns it and leaves the event as it was. -/
theorem nameSyncEvent_update_out_of_range :
    NameSyncEvent.zero.UnmarshalJSON
        (.text (.arr [.str "update", .str "n", .str "v", .real (strconv.scale10 1 400)]))
      = (NameSyncEvent.zero, some (.unmarshalType "number" "float64")) :=
  unmarshalEvent_unfit _ _ (by decide)

theorem tdiv_num_den (f : ℚ) :
    Int.tdiv f.num f.den = if 0 ≤ f then ⌊f⌋ else ⌈f⌉ := by
  split
  · rename_i h
    rw [Rat.floor_def, Int.tdiv_eq_ediv (Rat.num_nonneg.mpr h) (by positivity)]
  · rename_i h
    have hneg : 0 ≤ (-f).num := Rat.num_nonneg.mpr (by linarith)
    have e : ⌈f⌉ = -⌊-f⌋ := by rw [Int.floor_neg, neg_neg]
    rw [e, Rat.floor_def, ← Int.tdiv_eq_ediv hneg (by positivity), Rat.neg_num, Rat.neg_den,
      Int.neg_tdiv, neg_neg]

/-- C10, as the code has it: an array that starts with atblock, followed by a string h,
by a number that is read as the float64 f, whose integer part is within the range of a
64-bit int, and by elements in which every number literal is within the range of
float64, decodes into a zero event as the event with BlockHash h and BlockHeight the
integer part of f (rounded toward zero; f itself when f is an integer), Name and Value
still empty. -/
theorem nameSyncEvent_atblock (h : String) (j : JSON) (f : ℚ) (rest : List JSON)
    (hj : json.decodeInterface j = (.float64 f, none)) (hfit : json.allFit rest = true)
    (hlo : -2 ^ 63 ≤ Int.tdiv f.num f.den) (hhi : Int.tdiv f.num f.den < 2 ^ 63) :
    NameSyncEvent.zero.UnmarshalJSON (.text (.arr (.str "atblock" :: .str h :: j :: rest)))
      = ({ Type_ := GoString.ofText "atblock", Name := GoString.ofText "",
           Value := GoString.ofText "", BlockHash := GoString.ofText h,
           BlockHeight := Int.tdiv f.num f.den }, none) ∧
    Int.tdiv f.num f.den = (if 0 ≤ f then ⌊f⌋ else ⌈f⌉) ∧
    (f.den = 1 → ((Int.tdiv f.num f.den : Int) : ℚ) = f) := by
  refine ⟨?_, tdiv_num_den f, ?_⟩
  · have hl : ∀ n : Nat, ¬ (n + 1 + 1 + 1 < 3) := fun n => by omega
    have hi : intOfFloat64 f = Int.tdiv f.num f.den := if_pos ⟨hlo, hhi⟩
    obtain ⟨ar, har⟩ := decodeElems_fit_eq rest hfit
    have hd : json.decodeElems (.str "atblock" :: .str h :: j :: rest)
        = (.string (GoString.ofText "atblock") :: .string (GoString.ofText h) :: .float64 f
            :: ar, none) := by
      simp [json.decodeElems, json.decodeInterface, hj, har, saveError_none]
    simp [hl, NameSyncEvent.UnmarshalJSON, json.UnmarshalSlice, json.decodeSlice, hd,
      NameSyncEvent.zero, hi]
    decide
  · intro hden
    rw [hden]
    simpa using Rat.coe_int_num_of_den_eq_one hden

/-- An instance of C10 as the code has it: the event `["atblock","00ff",12345]`. -/
theorem nameSyncEvent_atblock_witness :
    (json.decodeInterface (.int 12345) = (.float64 ((12345 : Int) : ℚ), none) ∧
      json.allFit [] = true) ∧
    NameSyncEvent.zero.UnmarshalJSON
        (.text (.arr [.str "atblock", .str "00ff", .int 12345]))
      = ({ Type_ := GoString.ofText "atblock", Name := GoString.ofText "",
           Value := GoString.ofText "", BlockHash := GoString.ofText "00ff",
           BlockHeight := 12345 }, none) :=
  ⟨⟨rfl, rfl⟩,
    (nameSyncEvent_atblock "00ff" (.int 12345) ((12345 : Int) : ℚ) [] rfl rfl
      (by decide) (by decide)).1⟩

/-- C10 as stated fails at the number 9223372036854775808, two to the power 63: the
decoder succeeds, and BlockHeight is not that number but the smallest 64-bit int. It
also fails at 9007199254740993, two to the power 53 plus one, which is read as the
float64 9007199254740992. -/
theorem nameSyncEvent_atblock_overflow :
    NameSyncEvent.zero.UnmarshalJSON
        (.text (.arr [.str "atblock", .str "00ff", .int 9223372036854775808]))
      = ({ Type_ := GoString.ofText "atblock", Name := GoString.ofText "",
           Value := GoString.ofText "", BlockHash := GoString.ofText "00ff",
           BlockHeight := -9223372036854775808 }, none) ∧
    (NameSyncEvent.zero.UnmarshalJSON
        (.text (.arr [.str "atblock", .str "00ff", .int 9223372036854775808]))).1.BlockHeight
      ≠ 9223372036854775808 ∧
    (NameSyncEvent.zero.UnmarshalJSON
        (.text (.arr [.str "atblock", .str "00ff", .int 9007199254740993]))).1.BlockHeight
      = 9007199254740992 :=
  ⟨by decide, by decide, by decide⟩

/-- C11, as the code has it: an array that starts with a string other than firstupdate,
update and atblock, followed by elements in which every number literal is within the
range of float64, decodes into a zero event without error as the event with that Type
and every other field still zero. -/
theorem nameSyncEvent_unknown_tag (t : String) (rest : List JSON)
    (h1 : t ≠ "firstupdate") (h2 : t ≠ "update") (h3 : t ≠ "atblock")
    (hfit : json.allFit rest = true) :
    NameSyncEvent.zero.UnmarshalJSON (.text (.arr (.str t :: rest)))
      = ({ Type_ := GoString.ofText t, Name := GoString.ofText "",
           Value := GoString.ofText "", BlockHash := GoString.ofText "",
           BlockHeight := 0 }, none) := by
  obtain ⟨ar, har⟩ := decodeElems_fit_eq rest hfit
  have hd := decodeElems_cons (.str t) rest ar rfl har
  simp [NameSyncEvent.UnmarshalJSON, json.UnmarshalSlice, json.decodeSlice, hd,
    decodeInterface_str, ofText_inj, NameSyncEvent.zero, h1, h2, h3]

/-- An instance of C11 as the code has it: the event `["bogus"]`. -/
theorem nameSyncEvent_unknown_tag_witness :
    (("bogus" ≠ "firstupdate" ∧ "bogus" ≠ "update" ∧ "bogus" ≠ "atblock") ∧
      json.allFit [] = true) ∧
    NameSyncEvent.zero.UnmarshalJSON (.text (.arr [.str "bogus"]))
      = ({ Type_ := GoString.ofText "bogus", Name := GoString.ofText "",
           Value := GoString.ofText "", BlockHash := GoString.ofText "",
           BlockHeight := 0 }, none) :=
  ⟨⟨by decide, rfl⟩,
    nameSyncEvent_unknown_tag "bogus" [] (by decide) (by decide) (by decide) rfl⟩

/-- C11 as stated fails at the array `["bogus",1e400]`: the second element is a number
literal outside the range of float64, `json.Unmarshal` reports a type error, and the
decoder returns it and leaves the event as it was. -/
theorem nameSyncEvent_unknown_tag_out_of_range :
    NameSyncEvent.zero.UnmarshalJSON
        (.text (.arr [.str "bogus", .real (strconv.scale10 1 400)]))
      = (NameSyncEvent.zero, some (.unmarshalType "number" "float64")) :=
  unmarshalEvent_unfit _ _ (by decide)

/-! ## The name_sync reply parser -/

theorem syncReplyParser_arr (xs : List JSON) :
    syncReplyParser (.text (.arr xs))
      = (match (json.decodeNameSyncEvents xs []).2 with
         | some err => .error err
         | none => .ok (json.decodeNameSyncEvents xs []).1) := by
  simp only [syncReplyParser, json.UnmarshalNameSyncReply]
  rcases json.decodeNameSyncEvents xs [] with ⟨nsr, _ | err⟩ <;> rfl

theorem decodeNameSyncEvents_accepted (xs : List JSON) (nsr : NameSyncReply)
    (h : ∀ x ∈ xs, (NameSyncEvent.zero.UnmarshalJSON (.text x)).2 = none) :
    json.decodeNameSyncEvents xs nsr
      = (nsr ++ xs.map (fun x => (NameSyncEvent.zero.UnmarshalJSON (.text x)).1), none) := by
  induction xs generalizing nsr with
  | nil => simp [json.decodeNameSyncEvents]
  | cons x rest ih =>
    have hx := h x (List.mem_cons_self _ _)
    rw [json.decodeNameSyncEvents]
    rcases hr : NameSyncEvent.zero.UnmarshalJSON (.text x) with ⟨e, _ | err⟩
    · simp only
      rw [ih _ (fun y hy => h y (List.mem_cons_of_mem _ hy))]
      simp [hr]
    · rw [hr] at hx
      simp at hx

theorem decodeNameSyncEvents_error_append (pre : List JSON) (x : JSON) (post : List JSON)
    (nsr : NameSyncReply) (err : Error)
    (hpre : ∀ y ∈ pre, (NameSyncEvent.zero.UnmarshalJSON (.text y)).2 = none ∨
      (NameSyncEvent.zero.UnmarshalJSON (.text y)).2 = some err)
    (hx : (NameSyncEvent.zero.UnmarshalJSON (.text x)).2 = some err) :
    (json.decodeNameSyncEvents (pre ++ x :: post) nsr).2 = some err := by
  induction pre generalizing nsr with
  | nil =>
    rw [List.nil_append, json.decodeNameSyncEvents]
    rcases hr : NameSyncEvent.zero.UnmarshalJSON (.text x) with ⟨e, _ | err'⟩
    · rw [hr] at hx
      simp at hx
    · rw [hr] at hx
      simpa using hx
  | cons y rest ih =>
    rw [List.cons_append, json.decodeNameSyncEvents]
    have hy := hpre y (List.mem_cons_self _ _)
    rcases hr : NameSyncEvent.zero.UnmarshalJSON (.text y) with ⟨e, _ | err'⟩
    · exact ih _ (fun z hz => hpre z (List.mem_cons_of_mem _ hz))
    · rw [hr] at hy
      simpa using hy

theorem decodeNameSyncEvents_fails (pre : List JSON) (x : JSON) (post : List JSON)
    (nsr : NameSyncReply) (hx : (NameSyncEvent.zero.UnmarshalJSON (.text x)).2 ≠ none) :
    (json.decodeNameSyncEvents (pre ++ x :: post) nsr).2 ≠ none := by
  induction pre generalizing nsr with
  | nil =>
    rw [List.nil_append, json.decodeNameSyncEvents]
    rcases hr : NameSyncEvent.zero.UnmarshalJSON (.text x) with ⟨e, _ | err'⟩
    · rw [hr] at hx
      simp at hx
    · simp
  | cons y rest ih =>
    rw [List.cons_append, json.decodeNameSyncEvents]
    rcases hr : NameSyncEvent.zero.UnmarshalJSON (.text y) with ⟨e, _ | err'⟩
    · exact ih _
    · simp

/-- C12, as the code has it: when a reply array holds a malformed event array, every
element before it is a JSON array or null, and no number literal in it or before it is
outside the range of float64, `syncReplyParser` returns the error
"malformed name_sync event" and no reply, whatever comes after it. -/
theorem syncReplyParser_malformed (pre : List JSON) (x : JSON) (post : List JSON)
    (hpre : ∀ y ∈ pre, notAnArray y = false ∧ json.numbersFit y = true)
    (hx : malformedEventArray x = true) (hxfit : json.numbersFit x = true) :
    syncReplyParser (.text (.arr (pre ++ x :: post))) = .error errMalformed ∧
    errMalformed.message = "malformed name_sync event" := by
  have hx' : (NameSyncEvent.zero.UnmarshalJSON (.text x)).2 = some errMalformed := by
    cases x with
    | arr xs =>
      rw [unmarshalEvent_error _ xs (by simpa [json.numbersFit] using hxfit)]
      have : NameSyncEvent.accepts xs = false := by simpa [malformedEventArray] using hx
      simp [this]
    | null => simp [malformedEventArray] at hx
    | bool b => simp [malformedEventArray] at hx
    | int n => simp [malformedEventArray] at hx
    | real x => simp [malformedEventArray] at hx
    | str s => simp [malformedEventArray] at hx
    | obj kvs => simp [malformedEventArray] at hx
  have h := decodeNameSyncEvents_error_append pre x post [] errMalformed
    (fun y hy => unmarshalEvent_array_or_null _ y (hpre y hy).1 (hpre y hy).2) hx'
  refine ⟨?_, rfl⟩
  rw [syncReplyParser_arr, h]

/-- An instance of C12 as the code has it: the replies `[[]]` and `[[42,"x","y"]]`, and a
malformed update after a well-formed event. -/
theorem syncReplyParser_malformed_witness :
    ((∀ y ∈ ([] : List JSON), notAnArray y = false ∧ json.numbersFit y = true) ∧
      malformedEventArray (.arr []) = true ∧ json.numbersFit (.arr []) = true) ∧
    syncReplyParser (.text (.arr [.arr []])) = .error errMalformed ∧
    syncReplyParser (.text (.arr [.arr [.int 42, .str "x", .str "y"]])) = .error errMalformed ∧
    syncReplyParser
        (.text (.arr [.arr [.str "atblock", .str "00ff", .int 12345],
          .arr [.str "update", .str "d/example"], .arr [.str "bogus"]]))
      = .error errMalformed :=
  ⟨⟨by simp, by decide, by decide⟩,
    (syncReplyParser_malformed [] (.arr []) [] (by simp) (by decide) (by decide)).1,
    (syncReplyParser_malformed [] (.arr [.int 42, .str "x", .str "y"]) [] (by simp)
      (by decide) (by decide)).1,
    (syncReplyParser_malformed [.arr [.str "atblock", .str "00ff", .int 12345]]
      (.arr [.str "update", .str "d/example"]) [.arr [.str "bogus"]] (by decide)
      (by decide) (by decide)).1⟩

/-- C12 as stated fails at the reply `[42, []]`: it holds an empty array, yet the error
is the type error of the number before it, not "malformed name_sync event". -/
theorem syncReplyParser_malformed_after_number :
    malformedEventArray (.arr []) = true ∧
    syncReplyParser (.text (.arr [.int 42, .arr []]))
      = .error (.unmarshalType "number" "[]interface {}") ∧
    syncReplyParser (.text (.arr [.int 42, .arr []])) ≠ .error errMalformed := by
  refine ⟨by decide, rfl, fun h => ?_⟩
  have h' : (Except.error (Error.unmarshalType "number" "[]interface {}") :
      Except Error NameSyncReply) = .error errMalformed := h
  simp [errMalformed] at h'

/-- C13, as the code has it: a reply array that holds an element that is neither an
array nor null (a number, a string, a boolean, an object) makes `syncReplyParser` fail;
when every element before it is accepted, the error is the type error that
`json.Unmarshal` reports for that element, not "malformed name_sync event". -/
theorem syncReplyParser_notAnArray (pre : List JSON) (x : JSON) (post : List JSON)
    (hx : notAnArray x = true) :
    (∃ err, syncReplyParser (.text (.arr (pre ++ x :: post))) = .error err) ∧
    ((∀ y ∈ pre, (NameSyncEvent.zero.UnmarshalJSON (.text y)).2 = none) →
      syncReplyParser (.text (.arr (pre ++ x :: post)))
        = .error (.unmarshalType x.kind "[]interface {}")) := by
  have hx' := unmarshalEvent_notAnArray NameSyncEvent.zero x hx
  constructor
  · have h := decodeNameSyncEvents_fails pre x post [] (by rw [hx']; simp)
    rw [syncReplyParser_arr]
    rcases hr : (json.decodeNameSyncEvents (pre ++ x :: post) []).2 with _ | err
    · exact absurd hr h
    · exact ⟨err, rfl⟩
  · intro hpre
    have h := decodeNameSyncEvents_error_append pre x post []
      (.unmarshalType x.kind "[]interface {}") (fun y hy => Or.inl (hpre y hy))
      (by rw [hx'])
    rw [syncReplyParser_arr, h]

/-- An instance of C13 as the code has it: a string after a well-formed event. -/
theorem syncReplyParser_notAnArray_witness :
    notAnArray (.str "update") = true ∧
    syncReplyParser (.text (.arr [.arr [.str "bogus"], .str "update", .arr []]))
      = .error (.unmarshalType "string" "[]interface {}") :=
  ⟨by decide,
    (syncReplyParser_notAnArray [.arr [.str "bogus"]] (.str "update") [.arr []]
      (by decide)).2 (by simp; rfl)⟩

/-- C13 as stated fails at the reply `[42]`: the parse fails with the type error of
`json.Unmarshal`, which is not the error reported for the reply `[[]]`. -/
theorem syncReplyParser_number_element :
    syncReplyParser (.text (.arr [.int 42]))
      = .error (.unmarshalType "number" "[]interface {}") ∧
    syncReplyParser (.text (.arr [.arr []])) = .error errMalformed ∧
    syncReplyParser (.text (.arr [.int 42])) ≠ syncReplyParser (.text (.arr [.arr []])) := by
  refine ⟨rfl, rfl, fun h => ?_⟩
  have h' : (Except.error (Error.unmarshalType "number" "[]interface {}") :
      Except Error NameSyncReply) = .error errMalformed := h
  simp [errMalformed] at h'

/-- C14, the code at the inputs `["update"]` and `["atblock","h","notanumber"]`: the
decoder returns the error "malformed name_sync event" and has already written the tag to
the Type field of the receiver, which was empty before the call. -/
theorem nameSyncEvent_failure_writes_type :
    NameSyncEvent.zero.UnmarshalJSON (.text (.arr [.str "update"]))
      = ({ Type_ := GoString.ofText "update", Name := GoString.ofText "",
           Value := GoString.ofText "", BlockHash := GoString.ofText "",
           BlockHeight := 0 }, some errMalformed) ∧
    NameSyncEvent.zero.UnmarshalJSON
        (.text (.arr [.str "atblock", .str "h", .str "notanumber"]))
      = ({ Type_ := GoString.ofText "atblock", Name := GoString.ofText "",
           Value := GoString.ofText "", BlockHash := GoString.ofText "",
           BlockHeight := 0 }, some errMalformed) ∧
    (NameSyncEvent.zero.UnmarshalJSON (.text (.arr [.str "update"]))).1 ≠ NameSyncEvent.zero :=
  ⟨rfl, rfl, by decide⟩

/-! ## The name_show reply parser -/

theorem decodeNameShowReplyMembers_append (l1 l2 : List (String × JSON)) (r : NameShowReply)
    (saved : Option Error) :
    json.decodeNameShowReplyMembers (l1 ++ l2) r saved
      = json.decodeNameShowReplyMembers l2 (json.decodeNameShowReplyMembers l1 r saved).1
          (json.decodeNameShowReplyMembers l1 r saved).2 := by
  induction l1 generalizing r saved with
  | nil => rfl
  | cons kv rest ih =>
    obtain ⟨k, v⟩ := kv
    exact ih _ _

theorem showReply_lastValue_append (kvs : List (String × JSON)) (k : String) (v : JSON)
    (f : NameShowReply.Field) :
    NameShowReply.lastValue (kvs ++ [(k, v)]) f
      = if NameShowReply.fieldOf k = some f then some v else NameShowReply.lastValue kvs f := by
  induction kvs with
  | nil => simp [NameShowReply.lastValue]
  | cons kv rest ih =>
    obtain ⟨k', v'⟩ := kv
    show (match NameShowReply.lastValue (rest ++ [(k, v)]) f with
      | some w => some w
      | none => if NameShowReply.fieldOf k' = some f then some v' else none) = _
    rw [ih]
    by_cases h : NameShowReply.fieldOf k = some f
    · simp [h]
    · simp [h, NameShowReply.lastValue]

theorem showReply_lastValue_filter (kvs : List (String × JSON)) (f : NameShowReply.Field) :
    NameShowReply.lastValue
        (kvs.filter (fun kv => (NameShowReply.fieldOf kv.1).isSome)) f
      = NameShowReply.lastValue kvs f := by
  induction kvs with
  | nil => rfl
  | cons kv rest ih =>
    obtain ⟨k, v⟩ := kv
    cases hk : NameShowReply.fieldOf k with
    | none =>
      simp only [List.filter, hk, Option.isSome_none, NameShowReply.lastValue, ih]
      cases NameShowReply.lastValue rest f <;> simp
    | some g => simp [List.filter, hk, NameShowReply.lastValue, ih]

theorem decodeNameShowReplyMembers_wellTyped (kvs : List (String × JSON))
    (h : ∀ kv ∈ kvs, NameShowReply.wellTyped kv = true) :
    json.decodeNameShowReplyMembers kvs NameShowReply.zero none
      = (NameShowReply.ofMembers kvs, none) := by
  induction kvs using List.reverseRecOn with
  | nil => rfl
  | append_singleton kvs kv ih =>
    obtain ⟨k, v⟩ := kv
    have hk : NameShowReply.wellTyped (k, v) = true := h (k, v) (by simp)
    rw [decodeNameShowReplyMembers_append,
      ih (fun kv hkv => h kv (List.mem_append_left _ hkv))]
    simp only [json.decodeNameShowReplyMembers, json.saveError, NameShowReply.ofMembers,
      showReply_lastValue_append, json.decodeNameShowReplyMember]
    unfold NameShowReply.wellTyped at hk
    cases hf : NameShowReply.fieldOf k with
    | none => simp
    | some f =>
      rw [hf] at hk
      cases f <;> cases v <;>
        simp_all [NameShowReply.Field.accepts, json.decodeString, json.decodeInt,
          json.decodeBool, stringField, intField, boolField]

/-- C15, as the code has it: keys select fields up to case. For every JSON object in
which each member whose key selects a field carries a value of the type of that field (a
string, an integer literal within the range of int, a boolean), `showReplyParser`
succeeds and every field holds the value of the last member whose key selects it, the
zero value when there is none; members whose keys select no field do not affect the
result; the keys name, value, height, expires_in, expired, address, txid, vout select the
eight fields; the empty object gives the all-zero record. -/
theorem showReplyParser_wellTyped (kvs : List (String × JSON))
    (h : ∀ kv ∈ kvs, NameShowReply.wellTyped kv = true) :
    showReplyParser (.text (.obj kvs)) = .ok (NameShowReply.ofMembers kvs) ∧
    showReplyParser (.text (.obj (kvs.filter (fun kv => (NameShowReply.fieldOf kv.1).isSome))))
      = showReplyParser (.text (.obj kvs)) ∧
    (NameShowReply.fieldOf "name" = some .Name ∧ NameShowReply.fieldOf "value" = some .Value ∧
      NameShowReply.fieldOf "height" = some .Height ∧
      NameShowReply.fieldOf "expires_in" = some .ExpiresIn ∧
      NameShowReply.fieldOf "expired" = some .Expired ∧
      NameShowReply.fieldOf "address" = some .Address ∧
      NameShowReply.fieldOf "txid" = some .TxID ∧ NameShowReply.fieldOf "vout" = some .VOut) ∧
    showReplyParser (.text (.obj [])) = .ok NameShowReply.zero := by
  have key : ∀ l : List (String × JSON), (∀ kv ∈ l, NameShowReply.wellTyped kv = true) →
      showReplyParser (.text (.obj l)) = .ok (NameShowReply.ofMembers l) := by
    intro l hl
    simp only [showReplyParser, json.UnmarshalNameShowReply,
      decodeNameShowReplyMembers_wellTyped l hl]
  refine ⟨key kvs h, ?_, by decide, rfl⟩
  rw [key kvs h, key _ (fun kv hkv => h kv (List.mem_of_mem_filter hkv))]
  simp only [NameShowReply.ofMembers, showReply_lastValue_filter]

/-- An instance of C15 as the code has it: the reply of the description. -/
theorem showReplyParser_wellTyped_witness :
    (∀ kv ∈ [("name", JSON.str "d/example"), ("value", JSON.str "1.2.3.4"),
        ("height", JSON.int 1000), ("expires_in", JSON.int 3600), ("expired", JSON.bool false),
        ("address", JSON.str "N1abc"), ("txid", JSON.str "abcd"), ("vout", JSON.int 0),
        ("extra", JSON.null)],
      NameShowReply.wellTyped kv = true) ∧
    showReplyParser
        (.text (.obj [("name", .str "d/example"), ("value", .str "1.2.3.4"),
          ("height", .int 1000), ("expires_in", .int 3600), ("expired", .bool false),
          ("address", .str "N1abc"), ("txid", .str "abcd"), ("vout", .int 0),
          ("extra", .null)]))
      = .ok { Name := GoString.ofText "d/example", Value := GoString.ofText "1.2.3.4",
              Height := 1000, ExpiresIn := 3600, Expired := false,
              Address := GoString.ofText "N1abc", TxID := GoString.ofText "abcd",
              VOut := 0 } :=
  ⟨by decide,
    (showReplyParser_wellTyped
      [("name", .str "d/example"), ("value", .str "1.2.3.4"), ("height", .int 1000),
        ("expires_in", .int 3600), ("expired", .bool false), ("address", .str "N1abc"),
        ("txid", .str "abcd"), ("vout", .int 0), ("extra", .null)] (by decide)).1.trans
      rfl⟩

/-- C15 as stated fails at the object with the one key NAME: the key is none of the
eight, yet it sets the field Name; and with a number under that key the parse fails. -/
theorem showReplyParser_key_case :
    showReplyParser (.text (.obj [("NAME", .str "x")]))
      = .ok { Name := GoString.ofText "x", Value := GoString.ofText "", Height := 0,
              ExpiresIn := 0, Expired := false, Address := GoString.ofText "",
              TxID := GoString.ofText "", VOut := 0 } ∧
    showReplyParser (.text (.obj [("NAME", .int 5)]))
      = .error (.unmarshalType "number" "string") :=
  ⟨rfl, rfl⟩


/-! ## The name_scan and name_filter reply parser -/

theorem decodeNameFilterItemMembers_append (l1 l2 : List (String × JSON))
    (r : NameFilterItem) (saved : Option Error) :
    json.decodeNameFilterItemMembers (l1 ++ l2) r saved
      = json.decodeNameFilterItemMembers l2 (json.decodeNameFilterItemMembers l1 r saved).1
          (json.decodeNameFilterItemMembers l1 r saved).2 := by
  induction l1 generalizing r saved with
  | nil => rfl
  | cons kv rest ih =>
    obtain ⟨k, v⟩ := kv
    exact ih _ _

theorem filterItem_lastValue_append (kvs : List (String × JSON)) (k : String) (v : JSON)
    (f : NameFilterItem.Field) :
    NameFilterItem.lastValue (kvs ++ [(k, v)]) f
      = if NameFilterItem.fieldOf k = some f then some v
        else NameFilterItem.lastValue kvs f := by
  induction kvs with
  | nil => simp [NameFilterItem.lastValue]
  | cons kv rest ih =>
    obtain ⟨k', v'⟩ := kv
    show (match NameFilterItem.lastValue (rest ++ [(k, v)]) f with
      | some w => some w
      | none => if NameFilterItem.fieldOf k' = some f then some v' else none) = _
    rw [ih]
    by_cases h : NameFilterItem.fieldOf k = some f
    · simp [h]
    · simp [h, NameFilterItem.lastValue]

theorem decodeNameFilterItemMembers_wellTyped (kvs : List (String × JSON))
    (h : ∀ kv ∈ kvs, NameFilterItem.wellTyped kv = true) :
    json.decodeNameFilterItemMembers kvs NameFilterItem.zero none
      = (NameFilterItem.ofMembers kvs, none) := by
  induction kvs using List.reverseRecOn with
  | nil => rfl
  | append_singleton kvs kv ih =>
    obtain ⟨k, v⟩ := kv
    have hk : NameFilterItem.wellTyped (k, v) = true := h (k, v) (by simp)
    rw [decodeNameFilterItemMembers_append,
      ih (fun kv hkv => h kv (List.mem_append_left _ hkv))]
    simp only [json.decodeNameFilterItemMembers, json.saveError, NameFilterItem.ofMembers,
      filterItem_lastValue_append, json.decodeNameFilterItemMember]
    unfold NameFilterItem.wellTyped at hk
    cases hf : NameFilterItem.fieldOf k with
    | none => simp
    | some f =>
      rw [hf] at hk
      cases f <;> cases v <;>
        simp_all [NameFilterItem.Field.accepts, json.decodeString, json.decodeInt,
          json.decodeBool, stringField, intField, boolField]

theorem decodeNameFilterItems_wellTyped (objs : List (List (String × JSON)))
    (nsr : NameFilterReply)
    (h : ∀ kvs ∈ objs, ∀ kv ∈ kvs, NameFilterItem.wellTyped kv = true) :
    json.decodeNameFilterItems (objs.map JSON.obj) nsr none
      = (nsr ++ objs.map NameFilterItem.ofMembers, none) := by
  induction objs generalizing nsr with
  | nil => simp [json.decodeNameFilterItems]
  | cons kvs rest ih =>
    simp only [List.map_cons, json.decodeNameFilterItems, json.decodeNameFilterItem,
      decodeNameFilterItemMembers_wellTyped kvs (h kvs (List.mem_cons_self _ _))]
    rw [ih _ (fun l hl => h l (List.mem_cons_of_mem _ hl))]
    simp

/-- C16, as the code has it: keys select fields up to case. For every JSON array of
objects in which each member whose key selects a field carries a value of the type of
that field, `filterReplyParser` succeeds with exactly one item per object, in the same
order, the i-th item holding in every field the value of the last member of the i-th
object whose key selects it, the zero value when there is none; the keys name, value,
txid, address, height, expires_in, expired select the seven fields, a key such as vout
selects none; the empty array gives the empty sequence. -/
theorem filterReplyParser_wellTyped (objs : List (List (String × JSON)))
    (h : ∀ kvs ∈ objs, ∀ kv ∈ kvs, NameFilterItem.wellTyped kv = true) :
    filterReplyParser (.text (.arr (objs.map JSON.obj)))
      = .ok (objs.map NameFilterItem.ofMembers) ∧
    (objs.map NameFilterItem.ofMembers).length = objs.length ∧
    (∀ i (hi : i < objs.length),
      (objs.map NameFilterItem.ofMembers)[i]? = some (NameFilterItem.ofMembers objs[i])) ∧
    (NameFilterItem.fieldOf "name" = some .Name ∧ NameFilterItem.fieldOf "value" = some .Value ∧
      NameFilterItem.fieldOf "txid" = some .TxID ∧
      NameFilterItem.fieldOf "address" = some .Address ∧
      NameFilterItem.fieldOf "height" = some .Height ∧
      NameFilterItem.fieldOf "expires_in" = some .ExpiresIn ∧
      NameFilterItem.fieldOf "expired" = some .Expired ∧
      NameFilterItem.fieldOf "vout" = none) ∧
    filterReplyParser (.text (.arr [])) = .ok [] := by
  refine ⟨?_, by simp, ?_, by decide, rfl⟩
  · simp only [filterReplyParser, json.UnmarshalNameFilterReply,
      decodeNameFilterItems_wellTyped objs [] h, List.nil_append]
  · intro i hi
    simp [hi]

/-- An instance of C16 as the code has it: a reply with two items. -/
theorem filterReplyParser_wellTyped_witness :
    (∀ kvs ∈ [[("name", JSON.str "d/a"), ("value", JSON.str "1"), ("txid", JSON.str "ab"),
          ("address", JSON.str "N1"), ("height", JSON.int 7), ("expires_in", JSON.int 9),
          ("expired", JSON.bool true), ("vout", JSON.int 3)],
        [("name", JSON.str "d/b")]],
      ∀ kv ∈ kvs, NameFilterItem.wellTyped kv = true) ∧
    filterReplyParser
        (.text (.arr [.obj [("name", .str "d/a"), ("value", .str "1"), ("txid", .str "ab"),
            ("address", .str "N1"), ("height", .int 7), ("expires_in", .int 9),
            ("expired", .bool true), ("vout", .int 3)],
          .obj [("name", .str "d/b")]]))
      = .ok [{ Name := GoString.ofText "d/a", Value := GoString.ofText "1",
               TxID := GoString.ofText "ab", Address := GoString.ofText "N1", Height := 7,
               ExpiresIn := 9, Expired := true },
             { Name := GoString.ofText "d/b", Value := GoString.ofText "",
               TxID := GoString.ofText "", Address := GoString.ofText "", Height := 0,
               ExpiresIn := 0, Expired := false }] :=
  ⟨by decide,
    (filterReplyParser_wellTyped
      [[("name", .str "d/a"), ("value", .str "1"), ("txid", .str "ab"), ("address", .str "N1"),
          ("height", .int 7), ("expires_in", .int 9), ("expired", .bool true),
          ("vout", .int 3)],
        [("name", .str "d/b")]] (by decide)).1.trans rfl⟩

/-- C16 as stated fails at the reply with the one object whose only key is Name: the
key name is absent, yet the field Name is set from it; and with a number under that key
the parse fails. -/
theorem filterReplyParser_key_case :
    filterReplyParser (.text (.arr [.obj [("Name", .str "x")]]))
      = .ok [{ Name := GoString.ofText "x", Value := GoString.ofText "",
               TxID := GoString.ofText "", Address := GoString.ofText "", Height := 0,
               ExpiresIn := 0, Expired := false }] ∧
    filterReplyParser (.text (.arr [.obj [("Name", .int 5)]]))
      = .error (.unmarshalType "number" "string") :=
  ⟨rfl, rfl⟩

/-! ## Outbound-only commands and constructors -/

/-- C17: for every input and every receiver, the `UnmarshalJSON` methods of
`NameSyncCmd`, `NameScanCmd` and `NameFilterCmd` panic with "not implemented"; they do not
return, with or without an error, and the receiver is as it was. -/
theorem outbound_unmarshal_panics (b : Bytes) (c1 : NameSyncCmd) (c2 : NameScanCmd)
    (c3 : NameFilterCmd) :
    (c1.UnmarshalJSON b = (c1, .panicked "not implemented") ∧
      ∀ err, (c1.UnmarshalJSON b).2 ≠ .returned err) ∧
    (c2.UnmarshalJSON b = (c2, .panicked "not implemented") ∧
      ∀ err, (c2.UnmarshalJSON b).2 ≠ .returned err) ∧
    (c3.UnmarshalJSON b = (c3, .panicked "not implemented") ∧
      ∀ err, (c3.UnmarshalJSON b).2 ≠ .returned err) := by
  refine ⟨⟨rfl, ?_⟩, ⟨rfl, ?_⟩, ⟨rfl, ?_⟩⟩ <;> intro err h <;> cases h

/-- C18: every constructor returns no error and a command whose `Id()` is the given id
and whose fields are the given arguments, each in its own field. -/
theorem constructors_passthrough (id : GoVal) (name blockHash start regexp : GoString)
    (count maxage startIndex : Int) (wait : Bool) :
    (∃ c, NewNameShowCmd id name = .ok c ∧ c.Id = id ∧ c.Name = name) ∧
    (∃ c, NewNameSyncCmd id blockHash count wait = .ok c ∧ c.Id = id ∧
      c.BlockHash = blockHash ∧ c.Count = count ∧ c.Wait = wait) ∧
    (∃ c, NewNameScanCmd id start count = .ok c ∧ c.Id = id ∧ c.From = start ∧
      c.Count = count) ∧
    (∃ c, NewNameFilterCmd id regexp maxage startIndex count = .ok c ∧ c.Id = id ∧
      c.Regexp = regexp ∧ c.MaxAge = maxage ∧ c.From = startIndex ∧ c.Count = count) :=
  ⟨⟨_, rfl, rfl, rfl⟩, ⟨_, rfl, rfl, rfl, rfl, rfl⟩, ⟨_, rfl, rfl, rfl, rfl⟩,
    ⟨_, rfl, rfl, rfl, rfl, rfl, rfl⟩⟩

/-! ## Acceptance of events, and replies of accepted events -/

/-- C19, as the code has it: for every receiver and every JSON array in which every
number literal is within the range of float64, `NameSyncEvent.UnmarshalJSON` returns no
error exactly when the array satisfies the acceptance condition, and the error
"malformed name_sync event" in every other case; what follows the third element does not
change the outcome. An array that holds a number literal outside the range of float64,
at any place, makes the decoder return the type error of `json.Unmarshal` and leave the
receiver alone. -/
theorem nameSyncEvent_acceptance (e : NameSyncEvent) (xs : List JSON)
    (hfit : json.allFit xs = true) :
    ((e.UnmarshalJSON (.text (.arr xs))).2 = none ↔ NameSyncEvent.accepts xs = true) ∧
    ((e.UnmarshalJSON (.text (.arr xs))).2 ≠ none →
      (e.UnmarshalJSON (.text (.arr xs))).2 = some errMalformed ∧
      errMalformed.message = "malformed name_sync event") ∧
    e.UnmarshalJSON (.text (.arr xs)) = e.UnmarshalJSON (.text (.arr (xs.take 3))) ∧
    (∀ ys : List JSON, json.allFit ys = false →
      e.UnmarshalJSON (.text (.arr ys)) = (e, some (.unmarshalType "number" "float64"))) := by
  refine ⟨?_, ?_, ?_, fun ys hys => unmarshalEvent_unfit e ys hys⟩
  · rw [unmarshalEvent_error e xs hfit]
    by_cases h : NameSyncEvent.accepts xs = true <;> simp [h]
  · rw [unmarshalEvent_error e xs hfit]
    by_cases h : NameSyncEvent.accepts xs = true <;> simp [h, errMalformed, Error.message]
  · rcases xs with _ | ⟨x, _ | ⟨y, _ | ⟨z, rest⟩⟩⟩
    · rfl
    · rfl
    · rfl
    · have hl : ∀ n : Nat, ¬ (n + 1 + 1 + 1 < 3) := fun n => by omega
      have hf : json.numbersFit x = true ∧ json.numbersFit y = true ∧
          json.numbersFit z = true ∧ json.allFit rest = true := by
        simpa [json.allFit] using hfit
      obtain ⟨hx, hy, hz, hrest⟩ := hf
      obtain ⟨ar, har⟩ := decodeElems_fit_eq rest hrest
      have hd := decodeElems_cons x _ _ hx (decodeElems_cons y _ _ hy
        (decodeElems_cons z rest ar hz har))
      have hd3 := decodeElems_cons x _ _ hx (decodeElems_cons y _ _ hy
        (decodeElems_cons z [] [] hz rfl))
      simp [hl, NameSyncEvent.UnmarshalJSON, json.UnmarshalSlice, json.decodeSlice, hd, hd3]

/-- An instance of C19 as the code has it: the event `["atblock","00ff",12345,"more"]`. -/
theorem nameSyncEvent_acceptance_witness :
    json.allFit [.str "atblock", .str "00ff", .int 12345, .str "more"] = true ∧
    ((NameSyncEvent.zero.UnmarshalJSON
        (.text (.arr [.str "atblock", .str "00ff", .int 12345, .str "more"]))).2 = none ↔
      NameSyncEvent.accepts [.str "atblock", .str "00ff", .int 12345, .str "more"] = true) ∧
    NameSyncEvent.accepts [.str "atblock", .str "00ff", .int 12345, .str "more"] = true :=
  ⟨by decide,
    (nameSyncEvent_acceptance NameSyncEvent.zero
      [.str "atblock", .str "00ff", .int 12345, .str "more"] (by decide)).1,
    by decide⟩

/-- C19 as stated fails at the array `["atblock","h",1e400]`: it meets the acceptance
condition, yet the decoder returns an error, and that error is not
"malformed name_sync event" either; and at `["x","a","b",1e400]` an element after the
third makes the decoder fail. -/
theorem nameSyncEvent_acceptance_out_of_range :
    NameSyncEvent.accepts [.str "atblock", .str "h", .real (strconv.scale10 1 400)] = true ∧
    NameSyncEvent.zero.UnmarshalJSON
        (.text (.arr [.str "atblock", .str "h", .real (strconv.scale10 1 400)]))
      = (NameSyncEvent.zero, some (.unmarshalType "number" "float64")) ∧
    Error.unmarshalType "number" "float64" ≠ errMalformed ∧
    NameSyncEvent.zero.UnmarshalJSON
        (.text (.arr [.str "x", .str "a", .str "b", .real (strconv.scale10 1 400)]))
      = (NameSyncEvent.zero, some (.unmarshalType "number" "float64")) ∧
    (NameSyncEvent.zero.UnmarshalJSON (.text (.arr [.str "x", .str "a", .str "b"]))).2
      = none :=
  ⟨by decide, unmarshalEvent_unfit _ _ (by decide), by decide,
    unmarshalEvent_unfit _ _ (by decide), by decide⟩

/-- C20: when every element of a reply array is accepted by the event decoder,
`syncReplyParser` succeeds with one event per element, in the same order, the i-th event
being the i-th element decoded into a zero event; the empty array gives the empty
sequence. -/
theorem syncReplyParser_accepted (xs : List JSON)
    (h : ∀ x ∈ xs, (NameSyncEvent.zero.UnmarshalJSON (.text x)).2 = none) :
    syncReplyParser (.text (.arr xs))
      = .ok (xs.map (fun x => (NameSyncEvent.zero.UnmarshalJSON (.text x)).1)) ∧
    (xs.map (fun x => (NameSyncEvent.zero.UnmarshalJSON (.text x)).1)).length = xs.length ∧
    (∀ i (hi : i < xs.length),
      (xs.map (fun x => (NameSyncEvent.zero.UnmarshalJSON (.text x)).1))[i]?
        = some (NameSyncEvent.zero.UnmarshalJSON (.text xs[i])).1) ∧
    syncReplyParser (.text (.arr [])) = .ok [] := by
  refine ⟨?_, by simp, ?_, rfl⟩
  · rw [syncReplyParser_arr, decodeNameSyncEvents_accepted xs [] h]
    simp
  · intro i hi
    simp [hi]

/-- An instance of C20: the reply of the description, an update and a block. -/
theorem syncReplyParser_accepted_witness :
    (∀ x ∈ [JSON.arr [.str "update", .str "d/example", .str "newvalue"],
        JSON.arr [.str "atblock", .str "00ff", .int 12345]],
      (NameSyncEvent.zero.UnmarshalJSON (.text x)).2 = none) ∧
    syncReplyParser
        (.text (.arr [.arr [.str "update", .str "d/example", .str "newvalue"],
          .arr [.str "atblock", .str "00ff", .int 12345]]))
      = .ok [{ Type_ := GoString.ofText "update", Name := GoString.ofText "d/example",
               Value := GoString.ofText "newvalue", BlockHash := GoString.ofText "",
               BlockHeight := 0 },
             { Type_ := GoString.ofText "atblock", Name := GoString.ofText "",
               Value := GoString.ofText "", BlockHash := GoString.ofText "00ff",
               BlockHeight := 12345 }] :=
  ⟨by decide,
    (syncReplyParser_accepted
      [.arr [.str "update", .str "d/example", .str "newvalue"],
        .arr [.str "atblock", .str "00ff", .int 12345]] (by decide)).1.trans rfl⟩
end ncbtcjsontypes
